import Mathlib

/-!
# OpenRTX MDxx380 tone generator: embedding and verified properties

Shallow embedding of `platform/drivers/tones/toneGenerator_MDxx380.c`.
The module-wide variables and the TIM3 registers touched by the driver are the
fields of `State`; every driver function is a state transformer.  Unsigned
32-bit arithmetic is `Nat` arithmetic with an explicit `% 2 ^ 32`, the `int`
arithmetic of `toneGen_timedBeep` is `Int` arithmetic with an explicit
two's-complement wrap, and single-precision arithmetic is modelled exactly, as
correctly rounded (nearest, ties to even) operations on dyadic values; the
conversion of a `float` to `uint32_t` truncates and saturates, as it does on the
Cortex-M4F the driver is written for.
-/

namespace ToneGen

/-! ## Waveform table and constants -/

/-- The array `sineTable`: 256 samples over one period of a 64 Hz sinewave. -/
def sineTable : List Nat :=
  [128,131,134,137,140,143,146,149,152,155,158,162,165,167,170,173,176,179,182,
   185,188,190,193,196,198,201,203,206,208,211,213,215,218,220,222,224,226,228,
   230,232,234,235,237,238,240,241,243,244,245,246,248,249,250,250,251,252,253,
   253,254,254,254,255,255,255,255,255,255,255,254,254,254,253,253,252,251,250,
   250,249,248,246,245,244,243,241,240,238,237,235,234,232,230,228,226,224,222,
   220,218,215,213,211,208,206,203,201,198,196,193,190,188,185,182,179,176,173,
   170,167,165,162,158,155,152,149,146,143,140,137,134,131,128,124,121,118,115,
   112,109,106,103,100,97,93,90,88,85,82,79,76,73,70,67,65,62,59,57,54,52,49,47,
   44,42,40,37,35,33,31,29,27,25,23,21,20,18,17,15,14,12,11,10,9,7,6,5,5,4,3,2,
   2,1,1,1,0,0,0,0,0,0,0,1,1,1,2,2,3,4,5,5,6,7,9,10,11,12,14,15,17,18,20,21,23,
   25,27,29,31,33,35,37,40,42,44,47,49,52,54,57,59,62,65,67,70,73,76,79,82,85,88,
   90,93,97,100,103,106,109,112,115,118,121,124]

/-- The constant `baseSineFreq`: frequency of the sinewave stored in the table. -/
def baseSineFreq : Nat := 64

/-- Modelled from the spec: the vendor register header `stm32f4xx.h` is not part
of the sources.  Capture/compare 2 output enable (the Tone channel's enable bit
CC2E), bit 4 of `TIM3->CCER`. -/
def TIM_CCER_CC2E : Nat := 0x0010

/-- Modelled from the spec: the vendor register header `stm32f4xx.h` is not part
of the sources.  Capture/compare 3 output enable (the Beep channel's enable bit
CC3E), bit 8 of `TIM3->CCER`. -/
def TIM_CCER_CC3E : Nat := 0x0100

/-- Modelled from the spec: the vendor register header `stm32f4xx.h` is not part
of the sources.  Counter enable (the carrier count-enable bit CEN), bit 0 of
`TIM3->CR1`. -/
def TIM_CR1_CEN : Nat := 0x0001

/-- The C operator `~` on a 32-bit operand. -/
def bitNot32 (m : Nat) : Nat := 0xFFFFFFFF ^^^ m

/-- Two's-complement wrap of an integer into the range of a 32-bit `int`. -/
def wrapInt32 (x : Int) : Int :=
  if x % 4294967296 < 2147483648 then x % 4294967296 else x % 4294967296 - 4294967296

/-! ## Single-precision arithmetic -/

/-- Nearest integer to `n / d`, ties to even. -/
def roundHalfEven (n d : Nat) : Nat :=
  let q := n / d
  let r := n % d
  if 2 * r < d then q
  else if d < 2 * r then q + 1
  else if q % 2 = 0 then q else q + 1

/-- Number of binary digits of `n`, with `fuel` bounding the recursion. -/
def bitLenAux : Nat → Nat → Nat
  | 0, _ => 0
  | fuel + 1, n => if n = 0 then 0 else bitLenAux fuel (n / 2) + 1

/-- Number of binary digits of `n` (`0` for `n = 0`). -/
def bitLen (n : Nat) : Nat := bitLenAux n n

/-- For positive `n`, `d`: the integer `k` with `2 ^ k ≤ n / d < 2 ^ (k + 1)`. -/
def ratioLog2 (n d : Nat) : Int :=
  let e0 : Int := (bitLen n : Int) - (bitLen d : Int)
  if d * 2 ^ e0.toNat ≤ n * 2 ^ (-e0).toNat then e0 else e0 - 1

/-- Correct rounding of the non-negative ratio `n / d` to a binary format with
`prec` significant bits and least exponent `emin`: the result `(m, e)` stands
for `m * 2 ^ e`.  The exponent range is not bounded above: a result beyond the
largest finite value is kept as it is. -/
def roundRatio (prec : Nat) (emin : Int) (n d : Nat) : Nat × Int :=
  let e : Int := max (ratioLog2 n d - ((prec : Int) - 1)) emin
  (roundHalfEven (n * 2 ^ (-e).toNat) (d * 2 ^ e.toNat), e)

/-- A finite `float` value `(-1) ^ neg * m * 2 ^ e`. -/
structure F32 where
  neg : Bool
  m : Nat
  e : Int
deriving DecidableEq, Repr

/-- The rational number a floating-point value stands for. -/
def F32.toRat (x : F32) : ℚ :=
  (if x.neg then -1 else 1) * (x.m : ℚ) * (2 : ℚ) ^ x.e

/-- Values in the range of the binary32 format. -/
def F32.isBinary32 (x : F32) : Prop :=
  x.m < 2 ^ 24 ∧ -149 ≤ x.e ∧ x.e ≤ 104

/-- Rounding of the dyadic value `m * 2 ^ e` to `prec` significant bits. -/
def roundDyadic (prec : Nat) (emin : Int) (m : Nat) (e : Int) : Nat × Int :=
  roundRatio prec emin (m * 2 ^ e.toNat) (2 ^ (-e).toNat)

/-- Single-precision multiplication: the exact product, correctly rounded. -/
def F32.mul (a b : F32) : F32 :=
  let r := roundDyadic 24 (-149) (a.m * b.m) (a.e + b.e)
  { neg := xor a.neg b.neg, m := r.1, e := r.2 }

/-- The float literal `16384.0f`. -/
def f16384 : F32 := { neg := false, m := 16384, e := 0 }

/-- The float literal `65536.0f`. -/
def f65536 : F32 := { neg := false, m := 65536, e := 0 }

/-- The constant `freqCorrFactor = 16384.0f/16406.25`: the quotient is taken in
double precision (the divisor is a `double` literal, `1640625 / 100`) and then
converted to `float`. -/
def freqCorrFactor : F32 :=
  let q := roundRatio 53 (-1074) (f16384.m * 100) 1640625
  let r := roundDyadic 24 (-149) q.1 q.2
  { neg := false, m := r.1, e := r.2 }

/-- The conversion `(uint32_t) x` of a `float`: truncation towards zero,
saturating at the bounds of `uint32_t`.  ISO C leaves the conversion of a value
whose truncation is out of range undefined; the definition takes there what the
conversion instruction of the driver's target (`VCVT.U32.F32` of the
Cortex-M4F) returns, `0` below the range and `2 ^ 32 - 1` above it, which is
the implicit clamping the specification refers to. -/
def F32.toUInt32 (x : F32) : Nat :=
  let t := x.m * 2 ^ x.e.toNat / 2 ^ (-x.e).toNat
  if x.neg then 0
  else if t < 2 ^ 32 then t
  else 2 ^ 32 - 1

/-- The frequency-to-increment conversion shared by `toneGen_setToneFreq` and
`toneGen_setBeepFreq`:
`dividend = freq * freqCorrFactor * 65536.0f; ((uint32_t) dividend)/baseSineFreq`. -/
def freqToIncr (freq : F32) : Nat :=
  let dividend := (freq.mul freqCorrFactor).mul f65536
  dividend.toUInt32 / baseSineFreq

/-! ## State -/

/-- The module-wide variables of the driver and the TIM3 registers it uses. -/
structure State where
  toneTableIndex : Nat
  toneTableIncr : Nat
  beepTableIndex : Nat
  beepTableIncr : Nat
  beepTimerCount : Nat
  TIM3_CCR2 : Nat
  TIM3_CCR3 : Nat
  TIM3_SR : Nat
  TIM3_CCER : Nat
  TIM3_CR1 : Nat
deriving DecidableEq, Repr

/-- Tone channel enable: `TIM3->CCER & TIM_CCER_CC2E` is non-zero. -/
def toneEnabled (s : State) : Bool := s.TIM3_CCER &&& TIM_CCER_CC2E != 0

/-- Beep channel enable: `TIM3->CCER & TIM_CCER_CC3E` is non-zero. -/
def beepEnabled (s : State) : Bool := s.TIM3_CCER &&& TIM_CCER_CC3E != 0

/-- Carrier running: `TIM3->CR1 & TIM_CR1_CEN` is non-zero. -/
def carrierRunning (s : State) : Bool := s.TIM3_CR1 &&& TIM_CR1_CEN != 0

/-! ## The interrupt handler -/

/-- One table lookup `sineTable[(index >> 16) & 0xFF]`. -/
def sineSample (index : Nat) : Nat := sineTable.getD ((index >>> 16) &&& 0xFF) 0

/-- First part of `TIM3_IRQHandler`: both accumulators advance, both duty
registers are written and the status register is cleared. -/
def isrAdvance (s : State) : State :=
  let s := { s with toneTableIndex := (s.toneTableIndex + s.toneTableIncr) % 2 ^ 32 }
  let s := { s with beepTableIndex := (s.beepTableIndex + s.beepTableIncr) % 2 ^ 32 }
  let s := { s with TIM3_CCR2 := sineSample s.toneTableIndex }
  let s := { s with TIM3_CCR3 := sineSample s.beepTableIndex }
  { s with TIM3_SR := 0 }

/-- Second part of `TIM3_IRQHandler`: the downcounter of the timed beep. -/
def isrCountdown (s : State) : State :=
  if s.beepTimerCount > 0 then
    let s := { s with beepTimerCount := s.beepTimerCount - 1 }
    if s.beepTimerCount = 0 then
      { s with TIM3_CCER := s.TIM3_CCER &&& bitNot32 TIM_CCER_CC3E }
    else s
  else s

/-- Last part of `TIM3_IRQHandler`: shutdown of the timer if both compare
channels are inactive. -/
def isrShutdown (s : State) : State :=
  if s.TIM3_CCER &&& (TIM_CCER_CC2E ||| TIM_CCER_CC3E) = 0 then
    { s with TIM3_CR1 := s.TIM3_CR1 &&& bitNot32 TIM_CR1_CEN }
  else s

/-- The interrupt handler `TIM3_IRQHandler`. -/
def TIM3_IRQHandler (s : State) : State :=
  isrShutdown (isrCountdown (isrAdvance s))

/-- The state after `n` runs of the interrupt handler. -/
def ticks : Nat → State → State
  | 0, s => s
  | n + 1, s => ticks n (TIM3_IRQHandler s)

/-! ## Channel control -/

/-- The function `toneGen_setToneFreq`. -/
def toneGen_setToneFreq (toneFreq : F32) (s : State) : State :=
  { s with toneTableIncr := freqToIncr toneFreq }

/-- The function `toneGen_toneOn`. -/
def toneGen_toneOn (s : State) : State :=
  let s := { s with TIM3_CCER := s.TIM3_CCER ||| TIM_CCER_CC2E }
  { s with TIM3_CR1 := s.TIM3_CR1 ||| TIM_CR1_CEN }

/-- The function `toneGen_toneOff`. -/
def toneGen_toneOff (s : State) : State :=
  { s with TIM3_CCER := s.TIM3_CCER &&& bitNot32 TIM_CCER_CC2E }

/-- The function `toneGen_setBeepFreq`. -/
def toneGen_setBeepFreq (beepFreq : F32) (s : State) : State :=
  { s with beepTableIncr := freqToIncr beepFreq }

/-- The function `toneGen_beepOn`. -/
def toneGen_beepOn (s : State) : State :=
  let s := { s with TIM3_CCER := s.TIM3_CCER ||| TIM_CCER_CC3E }
  { s with TIM3_CR1 := s.TIM3_CR1 ||| TIM_CR1_CEN }

/-- The function `toneGen_beepOff`. -/
def toneGen_beepOff (s : State) : State :=
  { s with TIM3_CCER := s.TIM3_CCER &&& bitNot32 TIM_CCER_CC3E }

/-- The downcounter value `(duration * 16406)/1000` of `toneGen_timedBeep`:
`duration` is promoted to `int`, the product and the quotient are taken in
`int` and the result is converted to `uint32_t`. -/
def timedBeepCount (duration : Nat) : Nat :=
  ((Int.tdiv (wrapInt32 ((duration : Int) * 16406)) 1000) % 4294967296).toNat

/-- The register and variable writes of `toneGen_timedBeep`, for a downcounter
value `count`. -/
def startTimedBeep (count : Nat) (s : State) : State :=
  let s := { s with beepTimerCount := count }
  let s := { s with TIM3_CCER := s.TIM3_CCER ||| TIM_CCER_CC3E }
  { s with TIM3_CR1 := s.TIM3_CR1 ||| TIM_CR1_CEN }

/-- The function `toneGen_timedBeep`. -/
def toneGen_timedBeep (duration : Nat) (s : State) : State :=
  startTimedBeep (timedBeepCount duration) s

/-! ## Scenarios and reachable states -/

/-- The state at module start: every variable holds its initialiser `0` and the
TIM3 registers hold their reset value `0` (both channels off, carrier idle). -/
def resetState : State :=
  { toneTableIndex := 0, toneTableIncr := 0, beepTableIndex := 0, beepTableIncr := 0,
    beepTimerCount := 0, TIM3_CCR2 := 0, TIM3_CCR3 := 0, TIM3_SR := 0, TIM3_CCER := 0,
    TIM3_CR1 := 0 }

/-- The float literal `67.0`. -/
def f67 : F32 := { neg := false, m := 67, e := 0 }

/-- Initial states: both channel enable bits clear, carrier count-enable clear,
countdown zero. -/
def Init (s : State) : Prop :=
  toneEnabled s = false ∧ beepEnabled s = false ∧ carrierRunning s = false ∧
    s.beepTimerCount = 0

/-- States reachable from an initial state by control calls and interrupt
handler runs, in any order. -/
inductive Reachable : State → Prop
  | start (s : State) : Init s → Reachable s
  | setToneFreq (f : F32) (s : State) : Reachable s → Reachable (toneGen_setToneFreq f s)
  | toneOn (s : State) : Reachable s → Reachable (toneGen_toneOn s)
  | toneOff (s : State) : Reachable s → Reachable (toneGen_toneOff s)
  | setBeepFreq (f : F32) (s : State) : Reachable s → Reachable (toneGen_setBeepFreq f s)
  | beepOn (s : State) : Reachable s → Reachable (toneGen_beepOn s)
  | beepOff (s : State) : Reachable s → Reachable (toneGen_beepOff s)
  | timedBeep (d : Nat) (s : State) : Reachable s → Reachable (toneGen_timedBeep d s)
  | tick (s : State) : Reachable s → Reachable (TIM3_IRQHandler s)

/-- The tick count `⌈d * carrierRate / 1000⌉` of the specification, with
`carrierRate = 16406` ticks per second. -/
def specCeilTicks (d : Nat) : Nat := (d * 16406 + 999) / 1000


/-- The float literal `0.0`. -/
def f0 : F32 := { neg := false, m := 0, e := 0 }

/-- The actual carrier rate of the timer configuration in `toneGen_init`: tick
frequency 4.2 MHz, period `ARR + 1 = 256` ticks. -/
def actualCarrierRate : ℚ := 4200000 / 256

/-- The nominal carrier rate: 256 samples of a 64 Hz sinewave per second. -/
def nominalCarrierRate : ℚ := 256 * 64

/-- The increment of the specification,
`floor(targetHz * correctionFactor * 65536.0 / baseFrequencyHz)`: the products
are taken in single precision as in the source, the division by
`baseSineFreq = 64` is exact. -/
def specIncrement (freq : F32) : Nat :=
  ⌊((freq.mul freqCorrFactor).mul f65536).toRat / (baseSineFreq : ℚ)⌋₊

/-- The float value `4294967296.0` (`2 ^ 32`). -/
def f4294967296 : F32 := { neg := false, m := 1, e := 32 }

end ToneGen

/-!
# Flash memory protocol handler

Shallow embedding of `openrtx/src/core/fmp.c`.  A reply buffer is a list of
bytes, each either written (`some b`) or still uninitialised (`none`); every
store is checked against the bounds of the buffer.  The frames handed to
`rtxlink_send` are collected in a list.
-/

namespace Fmp

/-- The opcode `FMP_OP_ACK`. -/
def FMP_OP_ACK : Nat := 0x00

/-- The opcode `FMP_OP_MEMINFO`. -/
def FMP_OP_MEMINFO : Nat := 0x01

/-- The constants and data the handler takes from headers that are not part of
the sources: the status codes `OK` and `EBADRQC`, the number
`AVAILABLE_MEM_SIZE` of memory descriptors, `sizeof(meminfo_t)`, and the bytes
of each descriptor `available_mem[i]`. -/
structure Platform where
  OK : Nat
  EBADRQC : Nat
  AVAILABLE_MEM_SIZE : Nat
  sizeofMeminfo : Nat
  available_mem : Nat → List Nat

/-- A byte buffer; `none` is a byte that has not been written. -/
abbrev Buffer := List (Option Nat)

/-- An array `uint8_t reply[n]` with automatic storage: nothing is written. -/
def allocReply (n : Nat) : Buffer := List.replicate n none

/-- Conversion to `uint8_t`. -/
def toU8 (v : Nat) : Nat := v % 256

/-- The store `buf[i] = b`; `none` when `i` is out of bounds. -/
def store (buf : Buffer) (i b : Nat) : Option Buffer :=
  if i < buf.length then some (buf.set i (some b)) else none

/-- The call `memcpy(buf + off, src, n)`: the first `n` bytes of `src` are
copied; `none` when a read or a store is out of bounds. -/
def memcpy (buf : Buffer) (off : Nat) (src : List Nat) : Nat → Option Buffer
  | 0 => some buf
  | n + 1 =>
    (memcpy buf off src n).bind fun b =>
      src[n]?.bind fun v => store b (off + n) v

/-- The call `rtxlink_send(RTXLINK_FRAME_FMP, buf, len)`: the frame sent holds
the first `len` bytes of the buffer. -/
def rtxlink_send (buf : Buffer) (len : Nat) : List Buffer := [buf.take len]

/-- The function `fmp_sendAck`. -/
def fmp_sendAck (opcode status : Nat) : Option (List Buffer) :=
  (store (allocReply 3) 0 (toU8 opcode)).bind fun r =>
    (store r 1 (toU8 status)).bind fun r =>
      (store r 1 (toU8 0)).bind fun r =>
        some (rtxlink_send r 3)

/-- The macro `MEMINFO_REPLY_SIZE`. -/
def MEMINFO_REPLY_SIZE (p : Platform) : Nat :=
  3 + (p.AVAILABLE_MEM_SIZE * (p.sizeofMeminfo + 1))

/-- The first `n` rounds of the loop of `fmp_opMemInfo`. -/
def memInfoLoop (p : Platform) : Nat → Buffer → Option Buffer
  | 0, r => some r
  | n + 1, r =>
    (memInfoLoop p n r).bind fun r =>
      (store r (3 + n * (p.sizeofMeminfo + 1)) (toU8 p.sizeofMeminfo)).bind fun r =>
        memcpy r (3 + n * (p.sizeofMeminfo + 1) + 1) (p.available_mem n) p.sizeofMeminfo

/-- The function `fmp_opMemInfo`. -/
def fmp_opMemInfo (p : Platform) : Option (List Buffer) :=
  (store (allocReply (MEMINFO_REPLY_SIZE p)) 0 (toU8 FMP_OP_MEMINFO)).bind fun r =>
    (store r 1 (toU8 p.OK)).bind fun r =>
      (store r 2 (toU8 p.AVAILABLE_MEM_SIZE)).bind fun r =>
        (memInfoLoop p p.AVAILABLE_MEM_SIZE r).bind fun r =>
          some (rtxlink_send r (MEMINFO_REPLY_SIZE p))

/-- The function `fmp_protoCallback`: the result lists the frames sent; it is
`none` when the handler reads or writes out of bounds (an empty message has no
`data[0]`). -/
def fmp_protoCallback (p : Platform) (data : List Nat) : Option (List Buffer) :=
  match data with
  | [] => none
  | op :: _ =>
    if op = FMP_OP_MEMINFO then fmp_opMemInfo p
    else fmp_sendAck FMP_OP_ACK p.EBADRQC

/-- A sample platform: newlib's `EBADRQC = 54`, one memory descriptor of four
bytes. -/
def samplePlatform : Platform :=
  { OK := 0, EBADRQC := 54, AVAILABLE_MEM_SIZE := 1, sizeofMeminfo := 4,
    available_mem := fun _ => [0xde, 0xad, 0xbe, 0xef] }

end Fmp

namespace ToneGen

/-! ## Bit-level facts about the enable flags -/

theorem and_two_pow_bne_zero (x k : Nat) : (x &&& 2 ^ k != 0) = x.testBit k := by
  cases h : x.testBit k with
  | true =>
    have hne : x &&& 2 ^ k ≠ 0 := by
      intro h0
      have hb : (x &&& 2 ^ k).testBit k = true := by
        simp [Nat.testBit_and, h, Nat.testBit_two_pow_self]
      rw [h0] at hb
      simp at hb
    simpa using hne
  | false =>
    have h0 : x &&& 2 ^ k = 0 := by
      apply Nat.eq_of_testBit_eq
      intro i
      by_cases hi : k = i
      · subst hi; simp [Nat.testBit_and, h]
      · simp [Nat.testBit_and, Nat.testBit_two_pow_of_ne hi]
    simp [h0]

theorem toneEnabled_eq (s : State) : toneEnabled s = s.TIM3_CCER.testBit 4 :=
  and_two_pow_bne_zero s.TIM3_CCER 4

theorem beepEnabled_eq (s : State) : beepEnabled s = s.TIM3_CCER.testBit 8 :=
  and_two_pow_bne_zero s.TIM3_CCER 8

theorem carrierRunning_eq (s : State) : carrierRunning s = s.TIM3_CR1.testBit 0 :=
  and_two_pow_bne_zero s.TIM3_CR1 0

theorem and_enableMask_eq_zero (x : Nat) :
    x &&& (TIM_CCER_CC2E ||| TIM_CCER_CC3E) = 0 ↔
      x.testBit 4 = false ∧ x.testBit 8 = false := by
  have hmask : TIM_CCER_CC2E ||| TIM_CCER_CC3E = 2 ^ 4 ||| 2 ^ 8 := by decide
  rw [hmask]
  constructor
  · intro h0
    have h4 : (x &&& (2 ^ 4 ||| 2 ^ 8)).testBit 4 = false := by rw [h0]; simp
    have h8 : (x &&& (2 ^ 4 ||| 2 ^ 8)).testBit 8 = false := by rw [h0]; simp
    rw [Nat.testBit_and, Nat.testBit_or, Nat.testBit_two_pow, Nat.testBit_two_pow] at h4 h8
    simpa using And.intro h4 h8
  · rintro ⟨h4, h8⟩
    apply Nat.eq_of_testBit_eq
    intro i
    rw [Nat.testBit_and, Nat.testBit_or, Nat.testBit_two_pow, Nat.testBit_two_pow]
    by_cases hi4 : 4 = i
    · subst hi4; simp [h4]
    · by_cases hi8 : 8 = i
      · subst hi8; simp [h8]
      · simp [hi4, hi8]


theorem bitNot32_two_pow_testBit (k i : Nat) :
    (bitNot32 (2 ^ k)).testBit i = (decide (i < 32) ^^ decide (k = i)) := by
  have h : bitNot32 (2 ^ k) = (2 ^ 32 - 1) ^^^ 2 ^ k := rfl
  rw [h, Nat.testBit_xor, Nat.testBit_two_pow_sub_one, Nat.testBit_two_pow]

theorem testBit_setBit (x k i : Nat) :
    (x ||| 2 ^ k).testBit i = (x.testBit i || decide (k = i)) := by
  rw [Nat.testBit_or, Nat.testBit_two_pow]

theorem testBit_clearBit (x k i : Nat) :
    (x &&& bitNot32 (2 ^ k)).testBit i =
      (x.testBit i && (decide (i < 32) ^^ decide (k = i))) := by
  rw [Nat.testBit_and, bitNot32_two_pow_testBit]

theorem CC2E_eq : TIM_CCER_CC2E = 2 ^ 4 := rfl

theorem CC3E_eq : TIM_CCER_CC3E = 2 ^ 8 := rfl

theorem CEN_eq : TIM_CR1_CEN = 2 ^ 0 := rfl

/-! ## Effect of the handler's parts on the flags -/

theorem isrAdvance_CCER (s : State) : (isrAdvance s).TIM3_CCER = s.TIM3_CCER := rfl

theorem isrAdvance_CR1 (s : State) : (isrAdvance s).TIM3_CR1 = s.TIM3_CR1 := rfl

theorem isrAdvance_count (s : State) :
    (isrAdvance s).beepTimerCount = s.beepTimerCount := rfl

theorem isrCountdown_eq (s : State) :
    isrCountdown s =
      if 0 < s.beepTimerCount then
        if s.beepTimerCount - 1 = 0 then
          { s with beepTimerCount := s.beepTimerCount - 1,
                   TIM3_CCER := s.TIM3_CCER &&& bitNot32 TIM_CCER_CC3E }
        else { s with beepTimerCount := s.beepTimerCount - 1 }
      else s := rfl

theorem isrCountdown_CR1 (s : State) : (isrCountdown s).TIM3_CR1 = s.TIM3_CR1 := by
  rw [isrCountdown_eq]; split_ifs <;> rfl

theorem isrShutdown_CCER (s : State) : (isrShutdown s).TIM3_CCER = s.TIM3_CCER := by
  unfold isrShutdown; split_ifs <;> rfl

theorem isrShutdown_count (s : State) :
    (isrShutdown s).beepTimerCount = s.beepTimerCount := by
  unfold isrShutdown; split_ifs <;> rfl

theorem isrCountdown_tone (s : State) :
    toneEnabled (isrCountdown s) = toneEnabled s := by
  simp only [toneEnabled_eq]
  rw [isrCountdown_eq]
  split_ifs
  · show (s.TIM3_CCER &&& bitNot32 TIM_CCER_CC3E).testBit 4 = _
    rw [CC3E_eq, testBit_clearBit]; simp
  · rfl
  · rfl

theorem isrCountdown_beep_le (s : State) :
    beepEnabled (isrCountdown s) = true → beepEnabled s = true := by
  simp only [beepEnabled_eq]
  rw [isrCountdown_eq]
  split_ifs
  · show (s.TIM3_CCER &&& bitNot32 TIM_CCER_CC3E).testBit 8 = true → _
    rw [CC3E_eq, testBit_clearBit]; simp
  · exact id
  · exact id

theorem isrShutdown_running (s : State) :
    carrierRunning (isrShutdown s) =
      (carrierRunning s && (toneEnabled s || beepEnabled s)) := by
  simp only [carrierRunning_eq, toneEnabled_eq, beepEnabled_eq]
  unfold isrShutdown
  by_cases h : s.TIM3_CCER &&& (TIM_CCER_CC2E ||| TIM_CCER_CC3E) = 0
  · rw [if_pos h]
    obtain ⟨h4, h8⟩ := (and_enableMask_eq_zero _).1 h
    show (s.TIM3_CR1 &&& bitNot32 TIM_CR1_CEN).testBit 0 = _
    rw [CEN_eq, testBit_clearBit, h4, h8]; simp
  · rw [if_neg h]
    have h2 : ¬ (s.TIM3_CCER.testBit 4 = false ∧ s.TIM3_CCER.testBit 8 = false) :=
      fun hc => h ((and_enableMask_eq_zero _).2 hc)
    cases h4 : s.TIM3_CCER.testBit 4 <;> cases h8 : s.TIM3_CCER.testBit 8 <;>
      simp_all

theorem isrShutdown_CR1_of_enabled (s : State)
    (h : toneEnabled s = true ∨ beepEnabled s = true) :
    isrShutdown s = s := by
  simp only [toneEnabled_eq, beepEnabled_eq] at h
  unfold isrShutdown
  rw [if_neg]
  intro h0
  obtain ⟨h4, h8⟩ := (and_enableMask_eq_zero _).1 h0
  rcases h with h | h
  · rw [h4] at h; cases h
  · rw [h8] at h; cases h


/-! ## Control calls and the flags -/

theorem toneOn_flags (s : State) :
    toneEnabled (toneGen_toneOn s) = true ∧
      carrierRunning (toneGen_toneOn s) = true ∧
      beepEnabled (toneGen_toneOn s) = beepEnabled s := by
  simp only [toneEnabled_eq, beepEnabled_eq, carrierRunning_eq]
  refine ⟨?_, ?_, ?_⟩
  · show (s.TIM3_CCER ||| TIM_CCER_CC2E).testBit 4 = true
    rw [CC2E_eq, testBit_setBit]; simp
  · show (s.TIM3_CR1 ||| TIM_CR1_CEN).testBit 0 = true
    rw [CEN_eq, testBit_setBit]; simp
  · show (s.TIM3_CCER ||| TIM_CCER_CC2E).testBit 8 = _
    rw [CC2E_eq, testBit_setBit]; simp

theorem beepOn_flags (s : State) :
    beepEnabled (toneGen_beepOn s) = true ∧
      carrierRunning (toneGen_beepOn s) = true ∧
      toneEnabled (toneGen_beepOn s) = toneEnabled s := by
  simp only [toneEnabled_eq, beepEnabled_eq, carrierRunning_eq]
  refine ⟨?_, ?_, ?_⟩
  · show (s.TIM3_CCER ||| TIM_CCER_CC3E).testBit 8 = true
    rw [CC3E_eq, testBit_setBit]; simp
  · show (s.TIM3_CR1 ||| TIM_CR1_CEN).testBit 0 = true
    rw [CEN_eq, testBit_setBit]; simp
  · show (s.TIM3_CCER ||| TIM_CCER_CC3E).testBit 4 = _
    rw [CC3E_eq, testBit_setBit]; simp

theorem startTimedBeep_flags (c : Nat) (s : State) :
    beepEnabled (startTimedBeep c s) = true ∧
      carrierRunning (startTimedBeep c s) = true ∧
      toneEnabled (startTimedBeep c s) = toneEnabled s := by
  simp only [toneEnabled_eq, beepEnabled_eq, carrierRunning_eq]
  refine ⟨?_, ?_, ?_⟩
  · show (s.TIM3_CCER ||| TIM_CCER_CC3E).testBit 8 = true
    rw [CC3E_eq, testBit_setBit]; simp
  · show (s.TIM3_CR1 ||| TIM_CR1_CEN).testBit 0 = true
    rw [CEN_eq, testBit_setBit]; simp
  · show (s.TIM3_CCER ||| TIM_CCER_CC3E).testBit 4 = _
    rw [CC3E_eq, testBit_setBit]; simp

theorem startTimedBeep_frame (c : Nat) (s : State) :
    (startTimedBeep c s).toneTableIndex = s.toneTableIndex ∧
      (startTimedBeep c s).beepTableIndex = s.beepTableIndex ∧
      (startTimedBeep c s).toneTableIncr = s.toneTableIncr ∧
      (startTimedBeep c s).beepTableIncr = s.beepTableIncr ∧
      (startTimedBeep c s).beepTimerCount = c :=
  ⟨rfl, rfl, rfl, rfl, rfl⟩

theorem timedBeep_flags (d : Nat) (s : State) :
    beepEnabled (toneGen_timedBeep d s) = true ∧
      carrierRunning (toneGen_timedBeep d s) = true ∧
      toneEnabled (toneGen_timedBeep d s) = toneEnabled s :=
  startTimedBeep_flags _ s

theorem timedBeep_frame (d : Nat) (s : State) :
    (toneGen_timedBeep d s).toneTableIndex = s.toneTableIndex ∧
      (toneGen_timedBeep d s).beepTableIndex = s.beepTableIndex ∧
      (toneGen_timedBeep d s).toneTableIncr = s.toneTableIncr ∧
      (toneGen_timedBeep d s).beepTableIncr = s.beepTableIncr ∧
      (toneGen_timedBeep d s).beepTimerCount = timedBeepCount d :=
  startTimedBeep_frame _ s

theorem wrapInt32_of_range (x : Int) (h0 : 0 ≤ x) (h1 : x < 2147483648) :
    wrapInt32 x = x := by
  unfold wrapInt32
  have h : x % 4294967296 = x := Int.emod_eq_of_lt h0 (by omega)
  rw [h, if_pos h1]

theorem timedBeepCount_eq (d : Nat) (h : d < 65536) :
    timedBeepCount d = d * 16406 / 1000 := by
  unfold timedBeepCount
  rw [wrapInt32_of_range _ (by omega) (by omega), Int.tdiv_eq_ediv (by omega) (by omega)]
  have h3 : (d : Int) * 16406 / 1000 = ((d * 16406 / 1000 : Nat) : Int) := by
    rw [Int.natCast_div]; push_cast; rfl
  rw [h3]
  have h4 : d * 16406 / 1000 < 4294967296 := by omega
  omega

theorem toneOff_flags (s : State) :
    toneEnabled (toneGen_toneOff s) = false ∧
      carrierRunning (toneGen_toneOff s) = carrierRunning s ∧
      beepEnabled (toneGen_toneOff s) = beepEnabled s := by
  simp only [toneEnabled_eq, beepEnabled_eq, carrierRunning_eq]
  refine ⟨?_, rfl, ?_⟩
  · show (s.TIM3_CCER &&& bitNot32 TIM_CCER_CC2E).testBit 4 = false
    rw [CC2E_eq, testBit_clearBit]; simp
  · show (s.TIM3_CCER &&& bitNot32 TIM_CCER_CC2E).testBit 8 = _
    rw [CC2E_eq, testBit_clearBit]; simp

theorem beepOff_flags (s : State) :
    beepEnabled (toneGen_beepOff s) = false ∧
      carrierRunning (toneGen_beepOff s) = carrierRunning s ∧
      toneEnabled (toneGen_beepOff s) = toneEnabled s := by
  simp only [toneEnabled_eq, beepEnabled_eq, carrierRunning_eq]
  refine ⟨?_, rfl, ?_⟩
  · show (s.TIM3_CCER &&& bitNot32 TIM_CCER_CC3E).testBit 8 = false
    rw [CC3E_eq, testBit_clearBit]; simp
  · show (s.TIM3_CCER &&& bitNot32 TIM_CCER_CC3E).testBit 4 = _
    rw [CC3E_eq, testBit_clearBit]; simp

/-! ## The carrier interrupt -/

theorem tick_advance (s : State) :
    (TIM3_IRQHandler s).toneTableIndex = (s.toneTableIndex + s.toneTableIncr) % 2 ^ 32 ∧
    (TIM3_IRQHandler s).TIM3_CCR2 =
      sineSample ((s.toneTableIndex + s.toneTableIncr) % 2 ^ 32) ∧
    (TIM3_IRQHandler s).beepTableIndex = (s.beepTableIndex + s.beepTableIncr) % 2 ^ 32 ∧
    (TIM3_IRQHandler s).TIM3_CCR3 =
      sineSample ((s.beepTableIndex + s.beepTableIncr) % 2 ^ 32) := by
  unfold TIM3_IRQHandler isrShutdown
  rw [isrCountdown_eq]
  split_ifs <;> exact ⟨rfl, rfl, rfl, rfl⟩

theorem isrShutdown_idle (t : State) (ht : toneEnabled t = false ∧ beepEnabled t = false) :
    carrierRunning (isrShutdown t) = false := by
  rw [isrShutdown_running, ht.1, ht.2]; simp

theorem tick_idle_of_disabled (s : State)
    (h : toneEnabled s = false ∧ beepEnabled s = false) :
    carrierRunning (TIM3_IRQHandler s) = false := by
  apply isrShutdown_idle
  constructor
  · rw [isrCountdown_tone]; exact h.1
  · cases hb : beepEnabled (isrCountdown (isrAdvance s)) with
    | false => rfl
    | true =>
      have := isrCountdown_beep_le _ hb
      have h2 : beepEnabled (isrAdvance s) = beepEnabled s := rfl
      rw [h2, h.2] at this
      cases this

/-- C1: one run of `TIM3_IRQHandler` sets each accumulator to (old accumulator
+ own increment) mod 2^32 and writes `sineTable[(new accumulator >> 16) & 0xFF]`
to the channel's duty register (CCR2 for Tone, CCR3 for Beep); this holds in
every state, whatever the enable bits, and the new values are functions of the
channel's own old accumulator and increment only. -/
theorem isr_advances_both_channels (s : State) :
    (TIM3_IRQHandler s).toneTableIndex = (s.toneTableIndex + s.toneTableIncr) % 2 ^ 32 ∧
    (TIM3_IRQHandler s).TIM3_CCR2 =
      sineTable.getD ((((s.toneTableIndex + s.toneTableIncr) % 2 ^ 32) >>> 16) &&& 0xFF) 0 ∧
    (TIM3_IRQHandler s).beepTableIndex = (s.beepTableIndex + s.beepTableIncr) % 2 ^ 32 ∧
    (TIM3_IRQHandler s).TIM3_CCR3 =
      sineTable.getD ((((s.beepTableIndex + s.beepTableIncr) % 2 ^ 32) >>> 16) &&& 0xFF) 0 := by
  exact tick_advance s

/-- C2: after one run of the carrier ISR, if both enable bits (CC2E, CC3E) are
clear once the countdown logic has run then CEN is clear, and if at least one
is still set then CR1 (hence CEN) is left as it was; the enable bits the ISR
leaves behind are those after the countdown logic.  Hence a tick taken with
both channels disabled brings the carrier to Idle. -/
theorem isr_auto_shutdown (s : State) :
    (toneEnabled (isrCountdown (isrAdvance s)) = false ∧
        beepEnabled (isrCountdown (isrAdvance s)) = false →
      carrierRunning (TIM3_IRQHandler s) = false) ∧
    (toneEnabled (isrCountdown (isrAdvance s)) = true ∨
        beepEnabled (isrCountdown (isrAdvance s)) = true →
      (TIM3_IRQHandler s).TIM3_CR1 = s.TIM3_CR1) ∧
    (TIM3_IRQHandler s).TIM3_CCER = (isrCountdown (isrAdvance s)).TIM3_CCER ∧
    (toneEnabled s = false ∧ beepEnabled s = false →
      carrierRunning (TIM3_IRQHandler s) = false) := by
  refine ⟨isrShutdown_idle _, ?_, isrShutdown_CCER _, tick_idle_of_disabled s⟩
  intro h
  unfold TIM3_IRQHandler
  rw [isrShutdown_CR1_of_enabled _ h, isrCountdown_CR1, isrAdvance_CR1]

/-- Witness for C2: after `toneGen_beepOn` and `toneGen_beepOff` from the reset
state the carrier runs with both channels disabled, and one tick clears CEN;
with the Tone channel enabled and the carrier running a tick leaves CR1 as it
was. -/
theorem isr_auto_shutdown_witness :
    carrierRunning (toneGen_beepOff (toneGen_beepOn resetState)) = true ∧
    carrierRunning (TIM3_IRQHandler (toneGen_beepOff (toneGen_beepOn resetState))) = false ∧
    carrierRunning (toneGen_toneOn resetState) = true ∧
    (TIM3_IRQHandler (toneGen_toneOn resetState)).TIM3_CR1 =
      (toneGen_toneOn resetState).TIM3_CR1 :=
  ⟨by decide,
   (isr_auto_shutdown (toneGen_beepOff (toneGen_beepOn resetState))).1 ⟨by decide, by decide⟩,
   by decide,
   (isr_auto_shutdown (toneGen_toneOn resetState)).2.1 (Or.inl (by decide))⟩

/-- C4: from every state one call of `toneGen_toneOn` leaves CC2E and CEN set,
and one call of `toneGen_beepOn` or `toneGen_timedBeep d` leaves CC3E and CEN
set; the other channel's enable bit, both accumulators and both increments are
unchanged. -/
theorem channel_on_starts_carrier (s : State) (d : Nat) :
    (toneEnabled (toneGen_toneOn s) = true ∧ carrierRunning (toneGen_toneOn s) = true ∧
      beepEnabled (toneGen_toneOn s) = beepEnabled s ∧
      (toneGen_toneOn s).toneTableIndex = s.toneTableIndex ∧
      (toneGen_toneOn s).beepTableIndex = s.beepTableIndex ∧
      (toneGen_toneOn s).toneTableIncr = s.toneTableIncr ∧
      (toneGen_toneOn s).beepTableIncr = s.beepTableIncr) ∧
    (beepEnabled (toneGen_beepOn s) = true ∧ carrierRunning (toneGen_beepOn s) = true ∧
      toneEnabled (toneGen_beepOn s) = toneEnabled s ∧
      (toneGen_beepOn s).toneTableIndex = s.toneTableIndex ∧
      (toneGen_beepOn s).beepTableIndex = s.beepTableIndex ∧
      (toneGen_beepOn s).toneTableIncr = s.toneTableIncr ∧
      (toneGen_beepOn s).beepTableIncr = s.beepTableIncr) ∧
    (beepEnabled (toneGen_timedBeep d s) = true ∧
      carrierRunning (toneGen_timedBeep d s) = true ∧
      toneEnabled (toneGen_timedBeep d s) = toneEnabled s ∧
      (toneGen_timedBeep d s).toneTableIndex = s.toneTableIndex ∧
      (toneGen_timedBeep d s).beepTableIndex = s.beepTableIndex ∧
      (toneGen_timedBeep d s).toneTableIncr = s.toneTableIncr ∧
      (toneGen_timedBeep d s).beepTableIncr = s.beepTableIncr) := by
  obtain ⟨a1, a2, a3⟩ := toneOn_flags s
  obtain ⟨b1, b2, b3⟩ := beepOn_flags s
  obtain ⟨c1, c2, c3⟩ := timedBeep_flags d s
  obtain ⟨f1, f2, f3, f4, _⟩ := timedBeep_frame d s
  refine ⟨⟨a1, a2, a3, ?_⟩, ⟨b1, b2, b3, ?_⟩, ⟨c1, c2, c3, f1, f2, f3, f4⟩⟩
  · exact ⟨rfl, rfl, rfl, rfl⟩
  · exact ⟨rfl, rfl, rfl, rfl⟩


/-! ## Ticks: flags and countdown -/

theorem tick_tone (s : State) : toneEnabled (TIM3_IRQHandler s) = toneEnabled s := by
  have h1 : toneEnabled (TIM3_IRQHandler s) = toneEnabled (isrCountdown (isrAdvance s)) := by
    simp only [toneEnabled, TIM3_IRQHandler, isrShutdown_CCER]
  rw [h1, isrCountdown_tone]; rfl

theorem tick_count (s : State) :
    (TIM3_IRQHandler s).beepTimerCount = s.beepTimerCount - 1 := by
  unfold TIM3_IRQHandler
  rw [isrShutdown_count, isrCountdown_eq]
  split_ifs with h1 h2
  · rfl
  · rfl
  · show s.beepTimerCount = s.beepTimerCount - 1
    have : s.beepTimerCount = 0 := by
      have h0 : ¬ 0 < s.beepTimerCount := h1
      omega
    omega

theorem tick_beep (s : State) :
    beepEnabled (TIM3_IRQHandler s) = (beepEnabled s && decide (s.beepTimerCount ≠ 1)) := by
  have h1 : beepEnabled (TIM3_IRQHandler s) = beepEnabled (isrCountdown (isrAdvance s)) := by
    simp only [beepEnabled, TIM3_IRQHandler, isrShutdown_CCER]
  rw [h1]
  simp only [beepEnabled_eq]
  rw [isrCountdown_eq]
  have hc : (isrAdvance s).beepTimerCount = s.beepTimerCount := rfl
  have he : (isrAdvance s).TIM3_CCER = s.TIM3_CCER := rfl
  split_ifs with h1 h2
  · show ((isrAdvance s).TIM3_CCER &&& bitNot32 TIM_CCER_CC3E).testBit 8 = _
    rw [CC3E_eq, testBit_clearBit, hc] at *
    have : s.beepTimerCount = 1 := by omega
    simp [this]
  · show (isrAdvance s).TIM3_CCER.testBit 8 = _
    rw [hc] at h1 h2
    have : s.beepTimerCount ≠ 1 := by omega
    simp [he, this]
  · rw [hc] at h1
    have : s.beepTimerCount ≠ 1 := by omega
    simp [he, this]

theorem tick_running (s : State) :
    carrierRunning (TIM3_IRQHandler s) =
      (carrierRunning s && (toneEnabled s || beepEnabled (TIM3_IRQHandler s))) := by
  have hb : beepEnabled (TIM3_IRQHandler s) = beepEnabled (isrCountdown (isrAdvance s)) := by
    simp only [beepEnabled, TIM3_IRQHandler, isrShutdown_CCER]
  have hr : carrierRunning (isrCountdown (isrAdvance s)) = carrierRunning s := by
    simp only [carrierRunning, isrCountdown_CR1, isrAdvance_CR1]
  have ht : toneEnabled (isrCountdown (isrAdvance s)) = toneEnabled s := by
    rw [isrCountdown_tone]; rfl
  rw [hb]
  unfold TIM3_IRQHandler
  rw [isrShutdown_running, hr, ht]

theorem ticks_succ (n : Nat) (s : State) :
    ticks (n + 1) s = ticks n (TIM3_IRQHandler s) := rfl

theorem ticks_tone (n : Nat) (s : State) : toneEnabled (ticks n s) = toneEnabled s := by
  induction n generalizing s with
  | zero => rfl
  | succ n ih => rw [ticks_succ, ih, tick_tone]

theorem ticks_count (n : Nat) (s : State) :
    (ticks n s).beepTimerCount = s.beepTimerCount - n := by
  induction n generalizing s with
  | zero => rfl
  | succ n ih => rw [ticks_succ, ih, tick_count]; omega

theorem ticks_beep (n : Nat) (s : State) :
    beepEnabled (ticks n s) =
      (beepEnabled s && !decide (0 < s.beepTimerCount ∧ s.beepTimerCount ≤ n)) := by
  induction n generalizing s with
  | zero =>
    have h : ¬ (0 < s.beepTimerCount ∧ s.beepTimerCount ≤ 0) := by omega
    show beepEnabled s = _
    rw [decide_eq_false h]; simp
  | succ n ih =>
    rw [ticks_succ, ih, tick_beep, tick_count]
    by_cases h : 0 < s.beepTimerCount ∧ s.beepTimerCount ≤ n + 1
    · rw [decide_eq_true h]
      by_cases h3 : s.beepTimerCount ≠ 1
      · have h4 : 0 < s.beepTimerCount - 1 ∧ s.beepTimerCount - 1 ≤ n := by omega
        rw [decide_eq_true h3, decide_eq_true h4]; simp
      · rw [decide_eq_false h3]; simp
    · have h3 : s.beepTimerCount ≠ 1 := by omega
      have h4 : ¬ (0 < s.beepTimerCount - 1 ∧ s.beepTimerCount - 1 ≤ n) := by omega
      rw [decide_eq_false h, decide_eq_true h3, decide_eq_false h4]; simp


/-! ## Frequency setting -/

theorem setToneFreq_eq (f : F32) (s : State) :
    toneGen_setToneFreq f s = { s with toneTableIncr := freqToIncr f } := rfl

theorem setBeepFreq_eq (f : F32) (s : State) :
    toneGen_setBeepFreq f s = { s with beepTableIncr := freqToIncr f } := rfl

theorem setToneFreq_flags (f : F32) (s : State) :
    toneEnabled (toneGen_setToneFreq f s) = toneEnabled s ∧
      beepEnabled (toneGen_setToneFreq f s) = beepEnabled s ∧
      carrierRunning (toneGen_setToneFreq f s) = carrierRunning s :=
  ⟨rfl, rfl, rfl⟩

theorem setBeepFreq_flags (f : F32) (s : State) :
    toneEnabled (toneGen_setBeepFreq f s) = toneEnabled s ∧
      beepEnabled (toneGen_setBeepFreq f s) = beepEnabled s ∧
      carrierRunning (toneGen_setBeepFreq f s) = carrierRunning s :=
  ⟨rfl, rfl, rfl⟩

theorem freqToIncr_f67 : freqToIncr f67 = 68514 := by decide

/-! ## The carrier runs whenever a channel is enabled -/

/-- C3: in every state reachable from an initial state (both enable bits clear,
CEN clear, countdown 0) by any finite sequence of control calls and ISR ticks,
if the Tone enable bit or the Beep enable bit is set then CEN is set. -/
theorem reachable_enabled_implies_running (s : State) (h : Reachable s) :
    toneEnabled s = true ∨ beepEnabled s = true → carrierRunning s = true := by
  induction h with
  | start s hs =>
    intro hen
    rcases hen with ht | hb
    · rw [hs.1] at ht; cases ht
    · rw [hs.2.1] at hb; cases hb
  | setToneFreq f s _ ih =>
    obtain ⟨h1, h2, h3⟩ := setToneFreq_flags f s
    rw [h1, h2, h3]; exact ih
  | toneOn s _ _ => intro _; exact (toneOn_flags s).2.1
  | toneOff s _ ih =>
    obtain ⟨h1, h2, h3⟩ := toneOff_flags s
    rw [h1, h2, h3]
    intro hen
    rcases hen with ht | hb
    · cases ht
    · exact ih (Or.inr hb)
  | setBeepFreq f s _ ih =>
    obtain ⟨h1, h2, h3⟩ := setBeepFreq_flags f s
    rw [h1, h2, h3]; exact ih
  | beepOn s _ _ => intro _; exact (beepOn_flags s).2.1
  | beepOff s _ ih =>
    obtain ⟨h1, h2, h3⟩ := beepOff_flags s
    rw [h1, h2, h3]
    intro hen
    rcases hen with ht | hb
    · exact ih (Or.inl ht)
    · cases hb
  | timedBeep d s _ _ => intro _; exact (timedBeep_flags d s).2.1
  | tick s _ ih =>
    intro hen
    rw [tick_running]
    have hrun : carrierRunning s = true := by
      rcases hen with ht | hb
      · rw [tick_tone] at ht; exact ih (Or.inl ht)
      · rw [tick_beep] at hb
        have hb2 : beepEnabled s = true := by
          cases hbs : beepEnabled s with
          | true => rfl
          | false => rw [hbs] at hb; simp at hb
        exact ih (Or.inr hb2)
    rw [hrun]
    rcases hen with ht | hb
    · rw [tick_tone] at ht; rw [ht]; rfl
    · rw [hb]; simp

/-- Witness for C3: after `toneGen_toneOn` from the reset state and one tick the
Tone channel is enabled and the carrier runs. -/
theorem reachable_enabled_implies_running_witness :
    toneEnabled (TIM3_IRQHandler (toneGen_toneOn resetState)) = true ∧
      carrierRunning (TIM3_IRQHandler (toneGen_toneOn resetState)) = true :=
  ⟨by decide,
   reachable_enabled_implies_running _
     (Reachable.tick _ (Reachable.toneOn _
       (Reachable.start resetState ⟨by decide, by decide, by decide, rfl⟩)))
     (Or.inl (by decide))⟩


/-! ## Timed beep -/

theorem timedBeep_ticks_beep (d n : Nat) (s : State) (h : d < 65536) :
    beepEnabled (ticks n (toneGen_timedBeep d s)) =
      !decide (0 < d * 16406 / 1000 ∧ d * 16406 / 1000 ≤ n) := by
  rw [ticks_beep, (timedBeep_flags d s).1, (timedBeep_frame d s).2.2.2.2,
    timedBeepCount_eq d h]
  simp

/-- C5, as stated, fails: for `d = 1` the countdown is `16` while
`⌈1 * 16406 / 1000⌉ = 17`, and after one tick fewer than that (16 ticks) the
Beep enable bit is already clear. -/
theorem timedBeep_ceil_counterexample :
    ¬ (∀ (d : Nat) (s : State), 0 < d → d < 65536 →
        beepEnabled (ticks (specCeilTicks d) (toneGen_timedBeep d s)) = false ∧
        beepEnabled (ticks (specCeilTicks d - 1) (toneGen_timedBeep d s)) = true) := by
  intro hall
  have h := (hall 1 resetState (by decide) (by decide)).2
  rw [timedBeep_ticks_beep 1 _ resetState (by decide)] at h
  revert h
  decide

/-- C5, amended: for every duration `0 < d < 65536` and every starting state,
after `toneGen_timedBeep d` followed by exactly `⌊d * 16406 / 1000⌋` ticks the
Beep enable bit is clear, after one tick fewer it is still set, and after
`⌈d * 16406 / 1000⌉` ticks it is clear as well. -/
theorem timedBeep_floor_ticks (d : Nat) (s : State) (h0 : 0 < d) (h : d < 65536) :
    beepEnabled (ticks (d * 16406 / 1000) (toneGen_timedBeep d s)) = false ∧
    beepEnabled (ticks (d * 16406 / 1000 - 1) (toneGen_timedBeep d s)) = true ∧
    beepEnabled (ticks (specCeilTicks d) (toneGen_timedBeep d s)) = false := by
  have hpos : 0 < d * 16406 / 1000 := by omega
  refine ⟨?_, ?_, ?_⟩
  · rw [timedBeep_ticks_beep d _ s h]
    have : 0 < d * 16406 / 1000 ∧ d * 16406 / 1000 ≤ d * 16406 / 1000 := ⟨hpos, le_refl _⟩
    rw [decide_eq_true this]; rfl
  · rw [timedBeep_ticks_beep d _ s h]
    have : ¬ (0 < d * 16406 / 1000 ∧ d * 16406 / 1000 ≤ d * 16406 / 1000 - 1) := by omega
    rw [decide_eq_false this]; rfl
  · rw [timedBeep_ticks_beep d _ s h]
    have : 0 < d * 16406 / 1000 ∧ d * 16406 / 1000 ≤ specCeilTicks d := by
      unfold specCeilTicks; omega
    rw [decide_eq_true this]; rfl

/-- Witness for C5 (amended): a one-millisecond beep from the reset state is
over after 16 ticks, not before. -/
theorem timedBeep_floor_ticks_witness :
    beepEnabled (ticks (1 * 16406 / 1000) (toneGen_timedBeep 1 resetState)) = false ∧
    beepEnabled (ticks (1 * 16406 / 1000 - 1) (toneGen_timedBeep 1 resetState)) = true ∧
    beepEnabled (ticks (specCeilTicks 1) (toneGen_timedBeep 1 resetState)) = false :=
  timedBeep_floor_ticks 1 resetState (by decide) (by decide)

/-- C8: for every duration `d` in `[0, 65535]`, `toneGen_timedBeep d` sets the
countdown to exactly `⌊d * 16406 / 1000⌋`, and the product `d * 16406` lies in
the range of a signed 32-bit `int`, so that its wrap is the product itself. -/
theorem timedBeep_count_exact (d : Nat) (s : State) (h : d < 65536) :
    (toneGen_timedBeep d s).beepTimerCount = d * 16406 / 1000 ∧
    (d : Int) * 16406 ≤ 2147483647 ∧
    wrapInt32 ((d : Int) * 16406) = (d : Int) * 16406 := by
  refine ⟨?_, by omega, wrapInt32_of_range _ (by omega) (by omega)⟩
  rw [(timedBeep_frame d s).2.2.2.2, timedBeepCount_eq d h]

/-- Witness for C8: the longest duration, 65535 ms, gives a countdown of
1075167 ticks. -/
theorem timedBeep_count_exact_witness :
    (toneGen_timedBeep 65535 resetState).beepTimerCount = 65535 * 16406 / 1000 ∧
    ((65535 : Nat) : Int) * 16406 ≤ 2147483647 ∧
    wrapInt32 (((65535 : Nat) : Int) * 16406) = ((65535 : Nat) : Int) * 16406 :=
  timedBeep_count_exact 65535 resetState (by decide)


/-! ## Scenarios -/

theorem setToneFreq_f67 (s : State) :
    toneGen_setToneFreq f67 s = { s with toneTableIncr := 68514 } := by
  rw [setToneFreq_eq, freqToIncr_f67]

theorem sineSample_68514 : sineSample ((0 + 68514) % 2 ^ 32) = 131 := by decide

/-- C7, as stated, fails: from the reset state, after `toneGen_setToneFreq 67.0`
and `toneGen_toneOn`, one tick does not write `sineTable[0]` to CCR2 (the handler
adds the increment before the lookup). -/
theorem first_tick_sample_counterexample :
    (TIM3_IRQHandler (toneGen_toneOn (toneGen_setToneFreq f67 resetState))).TIM3_CCR2 ≠
      sineTable.getD 0 0 := by
  rw [setToneFreq_f67]
  decide

/-- C7, amended: from every state whose Tone accumulator is 0,
`toneGen_setToneFreq 67.0` stores the increment 68514, and after
`toneGen_toneOn` one tick writes `sineTable[1] = 131` to CCR2 (the accumulator
is advanced to 68514 before the lookup) and leaves the carrier running. -/
theorem first_tick_sample (s : State) (h : s.toneTableIndex = 0) :
    (toneGen_setToneFreq f67 s).toneTableIncr = 68514 ∧
      (TIM3_IRQHandler (toneGen_toneOn (toneGen_setToneFreq f67 s))).TIM3_CCR2 = 131 ∧
      sineTable.getD 1 0 = 131 ∧
      carrierRunning (TIM3_IRQHandler (toneGen_toneOn (toneGen_setToneFreq f67 s))) = true := by
  rw [setToneFreq_f67]
  refine ⟨rfl, ?_, by decide, ?_⟩
  · rw [(tick_advance _).2.1]
    show sineSample ((s.toneTableIndex + 68514) % 2 ^ 32) = 131
    rw [h]; exact sineSample_68514
  · rw [tick_running, (toneOn_flags _).2.1, (toneOn_flags _).1]; rfl

/-- Witness for C7 (amended), at the reset state. -/
theorem first_tick_sample_witness :
    (toneGen_setToneFreq f67 resetState).toneTableIncr = 68514 ∧
      (TIM3_IRQHandler (toneGen_toneOn (toneGen_setToneFreq f67 resetState))).TIM3_CCR2 = 131 ∧
      sineTable.getD 1 0 = 131 ∧
      carrierRunning
        (TIM3_IRQHandler (toneGen_toneOn (toneGen_setToneFreq f67 resetState))) = true :=
  first_tick_sample resetState rfl

/-- C9: for every frequency and every state, `toneGen_setToneFreq` changes only
the Tone increment and `toneGen_setBeepFreq` only the Beep increment: every
other variable and register (enable bits, CEN, both accumulators, the
countdown, the other increment) is unchanged. -/
theorem setFreq_frame (f : F32) (s : State) :
    (toneGen_setToneFreq f s =
        { s with toneTableIncr := (toneGen_setToneFreq f s).toneTableIncr } ∧
      toneEnabled (toneGen_setToneFreq f s) = toneEnabled s ∧
      beepEnabled (toneGen_setToneFreq f s) = beepEnabled s ∧
      carrierRunning (toneGen_setToneFreq f s) = carrierRunning s ∧
      (toneGen_setToneFreq f s).toneTableIndex = s.toneTableIndex ∧
      (toneGen_setToneFreq f s).beepTableIndex = s.beepTableIndex ∧
      (toneGen_setToneFreq f s).beepTimerCount = s.beepTimerCount ∧
      (toneGen_setToneFreq f s).beepTableIncr = s.beepTableIncr) ∧
    (toneGen_setBeepFreq f s =
        { s with beepTableIncr := (toneGen_setBeepFreq f s).beepTableIncr } ∧
      toneEnabled (toneGen_setBeepFreq f s) = toneEnabled s ∧
      beepEnabled (toneGen_setBeepFreq f s) = beepEnabled s ∧
      carrierRunning (toneGen_setBeepFreq f s) = carrierRunning s ∧
      (toneGen_setBeepFreq f s).toneTableIndex = s.toneTableIndex ∧
      (toneGen_setBeepFreq f s).beepTableIndex = s.beepTableIndex ∧
      (toneGen_setBeepFreq f s).beepTimerCount = s.beepTimerCount ∧
      (toneGen_setBeepFreq f s).toneTableIncr = s.toneTableIncr) := by
  obtain ⟨a1, a2, a3⟩ := setToneFreq_flags f s
  obtain ⟨b1, b2, b3⟩ := setBeepFreq_flags f s
  refine ⟨⟨rfl, a1, a2, a3, ?_⟩, ⟨rfl, b1, b2, b3, ?_⟩⟩
  · exact ⟨rfl, rfl, rfl, rfl⟩
  · exact ⟨rfl, rfl, rfl, rfl⟩

theorem freqToIncr_saturated : freqToIncr f4294967296 = 67108863 := by decide

/-- Witness for C9: the frequency `4294967296.0`, whose dividend is beyond the
range of `uint32_t`, set on the Tone channel of the reset state: the saturated
increment is stored, the channel stays off and the carrier idle. -/
theorem setFreq_frame_witness :
    toneGen_setToneFreq f4294967296 resetState =
      { resetState with toneTableIncr := 67108863 } ∧
    toneEnabled (toneGen_setToneFreq f4294967296 resetState) = toneEnabled resetState ∧
    carrierRunning (toneGen_setToneFreq f4294967296 resetState) =
      carrierRunning resetState :=
  ⟨by rw [setToneFreq_eq, freqToIncr_saturated],
   (setFreq_frame f4294967296 resetState).1.2.1,
   (setFreq_frame f4294967296 resetState).1.2.2.2.1⟩

/-- C10: with Tone off and the carrier idle, after `toneGen_beepOn` the carrier
runs; after the following `toneGen_beepOff` the Beep enable bit is clear while
CR1 (hence CEN) is untouched and the carrier still runs, the Tone enable bit
being unchanged; after the next single tick the carrier is idle. -/
theorem beepOn_beepOff_tick (s : State) (ht : toneEnabled s = false)
    (_hc : carrierRunning s = false) :
    carrierRunning (toneGen_beepOn s) = true ∧
    beepEnabled (toneGen_beepOff (toneGen_beepOn s)) = false ∧
    (toneGen_beepOff (toneGen_beepOn s)).TIM3_CR1 = (toneGen_beepOn s).TIM3_CR1 ∧
    toneEnabled (toneGen_beepOff (toneGen_beepOn s)) = toneEnabled (toneGen_beepOn s) ∧
    carrierRunning (toneGen_beepOff (toneGen_beepOn s)) = true ∧
    carrierRunning (TIM3_IRQHandler (toneGen_beepOff (toneGen_beepOn s))) = false := by
  obtain ⟨_, a2, a3⟩ := beepOn_flags s
  obtain ⟨b1, b2, b3⟩ := beepOff_flags (toneGen_beepOn s)
  refine ⟨a2, b1, rfl, b3, by rw [b2, a2], ?_⟩
  apply tick_idle_of_disabled
  exact ⟨by rw [b3, a3, ht], b1⟩

/-- Witness for C10, at the reset state. -/
theorem beepOn_beepOff_tick_witness :
    carrierRunning (toneGen_beepOn resetState) = true ∧
    beepEnabled (toneGen_beepOff (toneGen_beepOn resetState)) = false ∧
    (toneGen_beepOff (toneGen_beepOn resetState)).TIM3_CR1 =
      (toneGen_beepOn resetState).TIM3_CR1 ∧
    toneEnabled (toneGen_beepOff (toneGen_beepOn resetState)) =
      toneEnabled (toneGen_beepOn resetState) ∧
    carrierRunning (toneGen_beepOff (toneGen_beepOn resetState)) = true ∧
    carrierRunning (TIM3_IRQHandler (toneGen_beepOff (toneGen_beepOn resetState))) = false :=
  beepOn_beepOff_tick resetState (by decide) (by decide)


/-! ## Ticks: accumulators and increments -/

theorem tick_incr (s : State) :
    (TIM3_IRQHandler s).toneTableIncr = s.toneTableIncr ∧
    (TIM3_IRQHandler s).beepTableIncr = s.beepTableIncr := by
  unfold TIM3_IRQHandler isrShutdown
  rw [isrCountdown_eq]
  split_ifs <;> exact ⟨rfl, rfl⟩

theorem ticks_incr (n : Nat) (s : State) :
    (ticks n s).toneTableIncr = s.toneTableIncr ∧
    (ticks n s).beepTableIncr = s.beepTableIncr := by
  induction n generalizing s with
  | zero => exact ⟨rfl, rfl⟩
  | succ n ih =>
    rw [ticks_succ]
    exact ⟨(ih _).1.trans (tick_incr s).1, (ih _).2.trans (tick_incr s).2⟩

theorem ticks_toneIndex (n : Nat) (s : State) :
    (ticks (n + 1) s).toneTableIndex =
      (s.toneTableIndex + (n + 1) * s.toneTableIncr) % 2 ^ 32 := by
  induction n generalizing s with
  | zero =>
    show (TIM3_IRQHandler s).toneTableIndex = _
    rw [(tick_advance s).1, Nat.one_mul]
  | succ n ih =>
    rw [ticks_succ, ih, (tick_advance s).1, (tick_incr s).1, Nat.mod_add_mod]
    congr 1
    rw [Nat.add_mul (n + 1) 1, Nat.one_mul]
    omega

theorem ticks_beepIndex (n : Nat) (s : State) :
    (ticks (n + 1) s).beepTableIndex =
      (s.beepTableIndex + (n + 1) * s.beepTableIncr) % 2 ^ 32 := by
  induction n generalizing s with
  | zero =>
    show (TIM3_IRQHandler s).beepTableIndex = _
    rw [(tick_advance s).2.2.1, Nat.one_mul]
  | succ n ih =>
    rw [ticks_succ, ih, (tick_advance s).2.2.1, (tick_incr s).2, Nat.mod_add_mod]
    congr 1
    rw [Nat.add_mul (n + 1) 1, Nat.one_mul]
    omega

theorem ticks_snoc (n : Nat) (s : State) :
    ticks (n + 1) s = TIM3_IRQHandler (ticks n s) := by
  induction n generalizing s with
  | zero => rfl
  | succ n ih => rw [ticks_succ, ih]; rfl

theorem ticks_CCR (n : Nat) (s : State) :
    (ticks (n + 1) s).TIM3_CCR2 = sineSample (ticks (n + 1) s).toneTableIndex ∧
    (ticks (n + 1) s).TIM3_CCR3 = sineSample (ticks (n + 1) s).beepTableIndex := by
  rw [ticks_snoc]
  obtain ⟨h1, h2, h3, h4⟩ := tick_advance (ticks n s)
  rw [h1, h2, h3, h4]
  exact ⟨rfl, rfl⟩

/-! ## Countdown of the timed beep -/

/-- C16: in a state with the Beep enable bit set and countdown `n ≥ 1`, ticks
decrement the countdown by one each: after `k < n` ticks the countdown is
`n - k` and the bit is still set, after exactly `n` ticks the countdown is 0 and
the bit is clear; a countdown of 0 stays 0 and the ticks leave the enable bit
as it was. -/
theorem countdown_steps (s : State) (n : Nat) :
    (1 ≤ n → beepEnabled s = true → s.beepTimerCount = n →
      (∀ k, k < n → (ticks k s).beepTimerCount = n - k ∧ beepEnabled (ticks k s) = true) ∧
      (ticks n s).beepTimerCount = 0 ∧ beepEnabled (ticks n s) = false) ∧
    (s.beepTimerCount = 0 →
      ∀ k, (ticks k s).beepTimerCount = 0 ∧ beepEnabled (ticks k s) = beepEnabled s) := by
  constructor
  · intro hn hb hc
    refine ⟨?_, ?_, ?_⟩
    · intro k hk
      rw [ticks_count, ticks_beep, hb, hc]
      have h : ¬ (0 < n ∧ n ≤ k) := by omega
      rw [decide_eq_false h]
      exact ⟨rfl, rfl⟩
    · rw [ticks_count, hc]; omega
    · rw [ticks_beep, hb, hc]
      have h : 0 < n ∧ n ≤ n := ⟨hn, le_refl n⟩
      rw [decide_eq_true h]; rfl
  · intro hc k
    rw [ticks_count, ticks_beep, hc]
    have h : ¬ (0 < 0 ∧ 0 ≤ k) := by omega
    rw [decide_eq_false h]
    exact ⟨by omega, by simp⟩

/-- Witness for C16: a three-tick countdown started in the reset state by
`startTimedBeep`. -/
theorem countdown_steps_witness :
    (∀ k, k < 3 → (ticks k (startTimedBeep 3 resetState)).beepTimerCount = 3 - k ∧
        beepEnabled (ticks k (startTimedBeep 3 resetState)) = true) ∧
      (ticks 3 (startTimedBeep 3 resetState)).beepTimerCount = 0 ∧
      beepEnabled (ticks 3 (startTimedBeep 3 resetState)) = false :=
  (countdown_steps (startTimedBeep 3 resetState) 3).1 (by decide) (by decide) rfl

/-! ## Phase accumulator -/

theorem advance_closure (a inc k : Nat) (ha : a < 2 ^ 32) (hdvd : inc ∣ 2 ^ 32)
    (hinc : 0 < inc) :
    (a + (2 ^ 32 / inc) * inc) % 2 ^ 32 = a ∧
    (0 < k → k < 2 ^ 32 / inc → (a + k * inc) % 2 ^ 32 ≠ a) := by
  constructor
  · rw [Nat.div_mul_cancel hdvd, Nat.add_mod_right, Nat.mod_eq_of_lt ha]
  · intro hk0 hk
    have h1 : k * inc < 2 ^ 32 := by
      have := Nat.mul_lt_mul_of_pos_right hk hinc
      rwa [Nat.div_mul_cancel hdvd] at this
    have h2 : 0 < k * inc := Nat.mul_pos hk0 hinc
    generalize k * inc = p at h1 h2
    omega

/-- C17: for every 32-bit accumulator value and every increment `inc > 0`
dividing `2 ^ 32`, `2 ^ 32 / inc` ticks return the accumulator (of the Tone and
of the Beep channel) to its starting value, and no smaller positive number of
ticks does. -/
theorem phase_wraparound_closure (s : State) (inc : Nat) (hinc : 0 < inc)
    (hdvd : inc ∣ 2 ^ 32) :
    (s.toneTableIndex < 2 ^ 32 → s.toneTableIncr = inc →
      (ticks (2 ^ 32 / inc) s).toneTableIndex = s.toneTableIndex ∧
      ∀ k, 0 < k → k < 2 ^ 32 / inc → (ticks k s).toneTableIndex ≠ s.toneTableIndex) ∧
    (s.beepTableIndex < 2 ^ 32 → s.beepTableIncr = inc →
      (ticks (2 ^ 32 / inc) s).beepTableIndex = s.beepTableIndex ∧
      ∀ k, 0 < k → k < 2 ^ 32 / inc → (ticks k s).beepTableIndex ≠ s.beepTableIndex) := by
  have hq : 0 < 2 ^ 32 / inc :=
    Nat.div_pos (Nat.le_of_dvd (by norm_num) hdvd) hinc
  constructor
  · intro ha hi
    constructor
    · obtain ⟨m, hm⟩ : ∃ m, 2 ^ 32 / inc = m + 1 := ⟨2 ^ 32 / inc - 1, by omega⟩
      rw [hm, ticks_toneIndex, hi, ← hm]
      exact (advance_closure _ inc 0 ha hdvd hinc).1
    · intro k hk0 hk
      obtain ⟨m, hm⟩ : ∃ m, k = m + 1 := ⟨k - 1, by omega⟩
      rw [hm, ticks_toneIndex, hi, ← hm]
      exact (advance_closure _ inc k ha hdvd hinc).2 hk0 hk
  · intro ha hi
    constructor
    · obtain ⟨m, hm⟩ : ∃ m, 2 ^ 32 / inc = m + 1 := ⟨2 ^ 32 / inc - 1, by omega⟩
      rw [hm, ticks_beepIndex, hi, ← hm]
      exact (advance_closure _ inc 0 ha hdvd hinc).1
    · intro k hk0 hk
      obtain ⟨m, hm⟩ : ∃ m, k = m + 1 := ⟨k - 1, by omega⟩
      rw [hm, ticks_beepIndex, hi, ← hm]
      exact (advance_closure _ inc k ha hdvd hinc).2 hk0 hk

/-- Witness for C17: with the increment `2 ^ 31` the Tone accumulator of the
reset state is back at its start after 2 ticks and not after 1. -/
theorem phase_wraparound_closure_witness :
    (ticks (2 ^ 32 / 2 ^ 31) { resetState with toneTableIncr := 2 ^ 31 }).toneTableIndex = 0 ∧
    ∀ k, 0 < k → k < 2 ^ 32 / 2 ^ 31 →
      (ticks k { resetState with toneTableIncr := 2 ^ 31 }).toneTableIndex ≠ 0 :=
  (phase_wraparound_closure { resetState with toneTableIncr := 2 ^ 31 } (2 ^ 31)
    (by norm_num) ⟨2, by norm_num⟩).1 (by decide) rfl

/-! ## Zero frequency -/

theorem roundHalfEven_zero (d : Nat) (hd : 0 < d) : roundHalfEven 0 d = 0 := by
  unfold roundHalfEven
  simp [hd]

theorem roundDyadic_zero (prec : Nat) (emin e : Int) :
    (roundDyadic prec emin 0 e).1 = 0 := by
  unfold roundDyadic roundRatio
  simp only [Nat.zero_mul]
  exact roundHalfEven_zero _ (by positivity)

theorem mul_zero_m (a b : F32) (h : a.m = 0) : (a.mul b).m = 0 := by
  unfold F32.mul
  simp only [h, Nat.zero_mul]
  exact roundDyadic_zero _ _ _

theorem toUInt32_zero (x : F32) (h : x.m = 0) : x.toUInt32 = 0 := by
  unfold F32.toUInt32
  simp [h]

theorem freqToIncr_zero (f : F32) (h : f.m = 0) : freqToIncr f = 0 := by
  unfold freqToIncr
  simp only []
  rw [toUInt32_zero _ (mul_zero_m _ _ (mul_zero_m _ _ h))]
  rfl

/-- C18: a target frequency of 0 (significand 0) is stored as increment 0 by
both setters and leaves the enable bits as they are; with increment 0 a
channel is frozen: for every 32-bit accumulator value and every number of
ticks the accumulator is unchanged and every tick writes the same
`sineTable[(accumulator >> 16) & 0xFF]` to the duty register, and the Tone
enable bit is still what it was. -/
theorem zero_frequency_freezes (f : F32) (s : State) (hf : f.m = 0) :
    (toneGen_setToneFreq f s = { s with toneTableIncr := 0 } ∧
      toneEnabled { s with toneTableIncr := 0 } = toneEnabled s ∧
      (s.toneTableIndex < 2 ^ 32 → ∀ n,
        (ticks n { s with toneTableIncr := 0 }).toneTableIndex = s.toneTableIndex ∧
        (ticks (n + 1) { s with toneTableIncr := 0 }).TIM3_CCR2 =
          sineTable.getD ((s.toneTableIndex >>> 16) &&& 0xFF) 0 ∧
        toneEnabled (ticks n { s with toneTableIncr := 0 }) = toneEnabled s)) ∧
    (toneGen_setBeepFreq f s = { s with beepTableIncr := 0 } ∧
      beepEnabled { s with beepTableIncr := 0 } = beepEnabled s ∧
      (s.beepTableIndex < 2 ^ 32 → ∀ n,
        (ticks n { s with beepTableIncr := 0 }).beepTableIndex = s.beepTableIndex ∧
        (ticks (n + 1) { s with beepTableIncr := 0 }).TIM3_CCR3 =
          sineTable.getD ((s.beepTableIndex >>> 16) &&& 0xFF) 0 ∧
        beepEnabled (ticks n { s with beepTableIncr := 0 }) = beepEnabled (ticks n s))) := by
  have hidx : ∀ a : Nat, a < 2 ^ 32 → ∀ m : Nat, (a + m * 0) % 2 ^ 32 = a := by
    intro a ha m
    rw [Nat.mul_zero, Nat.add_zero, Nat.mod_eq_of_lt ha]
  constructor
  · refine ⟨?_, rfl, ?_⟩
    · rw [setToneFreq_eq, freqToIncr_zero f hf]
    · intro ha n
      have hT : ∀ m, (ticks (m + 1) { s with toneTableIncr := 0 }).toneTableIndex =
          s.toneTableIndex := by
        intro m
        rw [ticks_toneIndex]
        exact hidx _ ha (m + 1)
      refine ⟨?_, ?_, ?_⟩
      · cases n with
        | zero => rfl
        | succ m => exact hT m
      · rw [(ticks_CCR n _).1, hT n]; rfl
      · rw [ticks_tone]; rfl
  · refine ⟨?_, rfl, ?_⟩
    · rw [setBeepFreq_eq, freqToIncr_zero f hf]
    · intro ha n
      have hT : ∀ m, (ticks (m + 1) { s with beepTableIncr := 0 }).beepTableIndex =
          s.beepTableIndex := by
        intro m
        rw [ticks_beepIndex]
        exact hidx _ ha (m + 1)
      refine ⟨?_, ?_, ?_⟩
      · cases n with
        | zero => rfl
        | succ m => exact hT m
      · rw [(ticks_CCR n _).2, hT n]; rfl
      · rw [ticks_beep, ticks_beep]; rfl

/-- Witness for C18: `0.0` set as Tone frequency in the reset state, then five
ticks. -/
theorem zero_frequency_freezes_witness :
    toneGen_setToneFreq f0 resetState = { resetState with toneTableIncr := 0 } ∧
    (ticks 5 { resetState with toneTableIncr := 0 }).toneTableIndex = 0 ∧
    (ticks (4 + 1) { resetState with toneTableIncr := 0 }).TIM3_CCR2 =
      sineTable.getD ((resetState.toneTableIndex >>> 16) &&& 0xFF) 0 :=
  ⟨(zero_frequency_freezes f0 resetState rfl).1.1,
   (((zero_frequency_freezes f0 resetState rfl).1.2.2 (by decide)) 5).1,
   (((zero_frequency_freezes f0 resetState rfl).1.2.2 (by decide)) 4).2.1⟩

/-! ## Switching off twice -/

theorem clearBit_idem (x k : Nat) :
    (x &&& bitNot32 (2 ^ k)) &&& bitNot32 (2 ^ k) = x &&& bitNot32 (2 ^ k) := by
  rw [Nat.and_assoc, Nat.and_self]

theorem clearBit_of_clear (x k : Nat) (hx : x < 2 ^ 32) (hk : x.testBit k = false) :
    x &&& bitNot32 (2 ^ k) = x := by
  apply Nat.eq_of_testBit_eq
  intro i
  rw [testBit_clearBit]
  by_cases hik : k = i
  · subst hik; rw [hk]; rfl
  · by_cases hi : i < 32
    · simp [hik, hi]
    · have h2 : x < 2 ^ i :=
        lt_of_lt_of_le hx (Nat.pow_le_pow_right (by norm_num) (by omega))
      rw [Nat.testBit_lt_two_pow h2]; rfl

theorem toneOff_idem (s : State) :
    toneGen_toneOff (toneGen_toneOff s) = toneGen_toneOff s := by
  unfold toneGen_toneOff
  simp only [CC2E_eq, clearBit_idem]

theorem beepOff_idem (s : State) :
    toneGen_beepOff (toneGen_beepOff s) = toneGen_beepOff s := by
  unfold toneGen_beepOff
  simp only [CC3E_eq, clearBit_idem]

theorem toneOff_fixed (s : State) (hw : s.TIM3_CCER < 2 ^ 32) (ht : toneEnabled s = false) :
    toneGen_toneOff s = s := by
  rw [toneEnabled_eq] at ht
  unfold toneGen_toneOff
  rw [CC2E_eq, clearBit_of_clear _ _ hw ht]

theorem beepOff_fixed (s : State) (hw : s.TIM3_CCER < 2 ^ 32) (hb : beepEnabled s = false) :
    toneGen_beepOff s = s := by
  rw [beepEnabled_eq] at hb
  unfold toneGen_beepOff
  rw [CC3E_eq, clearBit_of_clear _ _ hw hb]

/-- C11: `toneGen_toneOff` and `toneGen_beepOff` are idempotent on every state;
in a state whose CCER holds a 32-bit value with both enable bits clear, any
number of `toneOff` and `beepOff` calls in either order leaves the whole state
unchanged, so that an idle carrier stays idle. -/
theorem off_idempotent (s : State) :
    toneGen_toneOff (toneGen_toneOff s) = toneGen_toneOff s ∧
    toneGen_beepOff (toneGen_beepOff s) = toneGen_beepOff s ∧
    (s.TIM3_CCER < 2 ^ 32 → toneEnabled s = false → beepEnabled s = false →
      toneGen_toneOff s = s ∧ toneGen_beepOff s = s ∧
      (∀ m n : Nat, toneGen_toneOff^[m] (toneGen_beepOff^[n] s) = s) ∧
      (∀ m n : Nat, toneGen_beepOff^[m] (toneGen_toneOff^[n] s) = s) ∧
      (carrierRunning s = false →
        carrierRunning (toneGen_toneOff (toneGen_beepOff s)) = false)) := by
  refine ⟨toneOff_idem s, beepOff_idem s, ?_⟩
  intro hw ht hb
  have h1 := toneOff_fixed s hw ht
  have h2 := beepOff_fixed s hw hb
  refine ⟨h1, h2, ?_, ?_, ?_⟩
  · intro m n
    rw [Function.iterate_fixed h2, Function.iterate_fixed h1]
  · intro m n
    rw [Function.iterate_fixed h1, Function.iterate_fixed h2]
  · intro hc
    rw [h2, h1]; exact hc

/-- Witness for C11: in the reset state both channels are off, and switching
them off again changes nothing. -/
theorem off_idempotent_witness :
    toneGen_toneOff resetState = resetState ∧ toneGen_beepOff resetState = resetState ∧
    (∀ m n : Nat, toneGen_toneOff^[m] (toneGen_beepOff^[n] resetState) = resetState) ∧
    (∀ m n : Nat, toneGen_beepOff^[m] (toneGen_toneOff^[n] resetState) = resetState) ∧
    (carrierRunning resetState = false →
      carrierRunning (toneGen_toneOff (toneGen_beepOff resetState)) = false) :=
  (off_idempotent resetState).2.2 (by decide) (by decide) (by decide)

/-! ## The waveform table -/

theorem sample_index_lt (a : Nat) : (a >>> 16) &&& 0xFF < 256 :=
  Nat.lt_of_le_of_lt Nat.and_le_right (by norm_num)

set_option maxRecDepth 100000 in
/-- C19: `sineTable` has exactly 256 entries, each in `[0, 255]`, so the lookup
at `(accumulator >> 16) & 0xFF` is in bounds for every accumulator; entry 0 is
128, the entries are non-decreasing from index 0 to 64 where 255 is reached,
non-increasing from 64 to 192 where 0 is reached (128 at index 128), and
non-decreasing from 192 to 255. -/
theorem sineTable_shape :
    sineTable.length = 256 ∧
    (∀ a : Nat, (a >>> 16) &&& 0xFF < sineTable.length) ∧
    (∀ v ∈ sineTable, v ≤ 255) ∧
    sineTable.getD 0 0 = 128 ∧ sineTable.getD 64 0 = 255 ∧
    sineTable.getD 128 0 = 128 ∧ sineTable.getD 192 0 = 0 ∧
    (∀ i, i < 64 → sineTable.getD i 0 ≤ sineTable.getD (i + 1) 0) ∧
    (∀ i, 64 ≤ i → i < 192 → sineTable.getD (i + 1) 0 ≤ sineTable.getD i 0) ∧
    (∀ i, 192 ≤ i → i < 255 → sineTable.getD i 0 ≤ sineTable.getD (i + 1) 0) := by
  refine ⟨by rfl, ?_, by decide, by decide, by decide, by decide, by decide, by decide,
    ?_, ?_⟩
  · intro a
    have h : sineTable.length = 256 := by rfl
    rw [h]; exact sample_index_lt a
  · have h : ∀ i, i < 192 → 64 ≤ i → sineTable.getD (i + 1) 0 ≤ sineTable.getD i 0 := by
      decide
    exact fun i h1 h2 => h i h2 h1
  · have h : ∀ i, i < 255 → 192 ≤ i → sineTable.getD i 0 ≤ sineTable.getD (i + 1) 0 := by
      decide
    exact fun i h1 h2 => h i h2 h1

/-! ## The correction factor -/

theorem freqCorrFactor_eq : freqCorrFactor = { neg := false, m := 16754463, e := -24 } := by
  decide

theorem freqCorrFactor_toRat : freqCorrFactor.toRat = 16754463 / 16777216 := by
  rw [freqCorrFactor_eq]
  unfold F32.toRat
  norm_num

/-- C14, as stated, fails: the correction factor is not
`actualCarrierRate / nominalCarrierRate` (which exceeds 1, while the constant
`16384.0f/16406.25` is below 1). -/
theorem freqCorrFactor_counterexample :
    freqCorrFactor.toRat ≠ actualCarrierRate / nominalCarrierRate := by
  rw [freqCorrFactor_toRat]
  unfold actualCarrierRate nominalCarrierRate
  norm_num

/-- C14, amended: the correction factor is the inverse ratio
`nominalCarrierRate / actualCarrierRate = 16384 / 16406.25` rounded to single
precision, that is `16754463 / 2 ^ 24`, within `2 ^ (-25)` of the exact
quotient; the rates are `4.2 MHz / 256 = 16406.25 Hz` and
`256 * 64 Hz = 16384 Hz`. -/
theorem freqCorrFactor_value :
    freqCorrFactor.toRat = 16754463 / 2 ^ 24 ∧
    |freqCorrFactor.toRat - nominalCarrierRate / actualCarrierRate| ≤ 1 / 2 ^ 25 ∧
    actualCarrierRate = 16406.25 ∧ nominalCarrierRate = 16384 := by
  rw [freqCorrFactor_toRat]
  unfold actualCarrierRate nominalCarrierRate
  refine ⟨by norm_num, ?_, by norm_num, by norm_num⟩
  rw [abs_le]
  constructor <;> norm_num

/-! ## Values of floating-point numbers -/

theorem two_zpow_split (e : Int) :
    (2 : ℚ) ^ e = ((2 ^ e.toNat : Nat) : ℚ) / ((2 ^ (-e).toNat : Nat) : ℚ) := by
  rcases le_total 0 e with h | h
  · obtain ⟨k, rfl⟩ := Int.eq_ofNat_of_zero_le h
    simp
  · obtain ⟨k, hk⟩ : ∃ k : Nat, e = -(k : Int) := ⟨(-e).toNat, by omega⟩
    subst hk
    simp [zpow_neg]

theorem toRat_of_pos (x : F32) (h : x.neg = false) :
    x.toRat = ((x.m * 2 ^ x.e.toNat : Nat) : ℚ) / ((2 ^ (-x.e).toNat : Nat) : ℚ) := by
  unfold F32.toRat
  rw [h, two_zpow_split]
  simp only [Bool.false_eq_true, if_false]
  push_cast
  ring

theorem toRat_of_m_zero (x : F32) (h : x.m = 0) : x.toRat = 0 := by
  unfold F32.toRat
  rw [h]; simp

theorem toRat_nonneg_of_pos (x : F32) (h : x.neg = false) : 0 ≤ x.toRat := by
  rw [toRat_of_pos x h]
  positivity

theorem floor_toRat (x : F32) (h : x.neg = false) :
    ⌊x.toRat⌋₊ = x.m * 2 ^ x.e.toNat / 2 ^ (-x.e).toNat := by
  rw [toRat_of_pos x h, Nat.floor_div_eq_div]

theorem toUInt32_of_pos (x : F32) (h : x.neg = false) :
    x.toUInt32 = if ⌊x.toRat⌋₊ < 2 ^ 32 then ⌊x.toRat⌋₊ else 2 ^ 32 - 1 := by
  rw [floor_toRat x h]
  unfold F32.toUInt32
  simp only [h]
  rfl

theorem neg_of_toRat_nonneg (x : F32) (h0 : 0 ≤ x.toRat) (hm : x.m ≠ 0) : x.neg = false := by
  cases hn : x.neg with
  | false => rfl
  | true =>
    exfalso
    unfold F32.toRat at h0
    rw [hn] at h0
    have hpos : (0 : ℚ) < (x.m : ℚ) * (2 : ℚ) ^ x.e := by
      have : (0 : ℚ) < (x.m : ℚ) := by exact_mod_cast Nat.pos_of_ne_zero hm
      positivity
    simp only [if_true] at h0
    linarith

theorem mul_neg_of_pos (a b : F32) (ha : a.neg = false) (hb : b.neg = false) :
    (a.mul b).neg = false := by
  unfold F32.mul
  simp [ha, hb]

theorem freqCorrFactor_neg : freqCorrFactor.neg = false := rfl

theorem dividend_neg (f : F32) (h : f.neg = false) :
    ((f.mul freqCorrFactor).mul f65536).neg = false :=
  mul_neg_of_pos _ _ (mul_neg_of_pos _ _ h freqCorrFactor_neg) rfl

theorem freqToIncr_of_pos (f : F32) (h : f.neg = false) :
    freqToIncr f =
      (if ⌊((f.mul freqCorrFactor).mul f65536).toRat⌋₊ < 2 ^ 32 then
        ⌊((f.mul freqCorrFactor).mul f65536).toRat⌋₊
      else 2 ^ 32 - 1) / baseSineFreq := by
  unfold freqToIncr
  simp only []
  rw [toUInt32_of_pos _ (dividend_neg f h)]

theorem specIncrement_eq (f : F32) :
    specIncrement f = ⌊((f.mul freqCorrFactor).mul f65536).toRat⌋₊ / baseSineFreq := by
  unfold specIncrement
  rw [Nat.floor_div_nat]

theorem freqToIncr_eq_spec (f : F32) (h0 : 0 ≤ f.toRat)
    (hx : ((f.mul freqCorrFactor).mul f65536).toRat < 2 ^ 32) :
    freqToIncr f = specIncrement f := by
  by_cases hm : f.m = 0
  · rw [freqToIncr_zero f hm, specIncrement_eq,
      toRat_of_m_zero _ (mul_zero_m _ _ (mul_zero_m _ _ hm))]
    simp
  · have hn := neg_of_toRat_nonneg f h0 hm
    have hfl : ⌊((f.mul freqCorrFactor).mul f65536).toRat⌋₊ < 2 ^ 32 := by
      have h1 := Nat.floor_le (toRat_nonneg_of_pos _ (dividend_neg f hn))
      have h2 : ((⌊((f.mul freqCorrFactor).mul f65536).toRat⌋₊ : Nat) : ℚ) < 2 ^ 32 :=
        lt_of_le_of_lt h1 hx
      exact_mod_cast h2
    rw [freqToIncr_of_pos f hn, if_pos hfl, specIncrement_eq]

/-- C12: for every frequency `hz ≥ 0` whose scaled value (the single-precision
dividend `hz * freqCorrFactor * 65536`) is below `2 ^ 32`, the increment stored
by `toneGen_setToneFreq` and `toneGen_setBeepFreq`, the truncated dividend
integer-divided by 64, is the specification's
`floor(hz * correctionFactor * 2 ^ 16 / 64)`. -/
theorem increment_refines_spec (f : F32) (s : State) (h0 : 0 ≤ f.toRat)
    (hx : ((f.mul freqCorrFactor).mul f65536).toRat < 2 ^ 32) :
    freqToIncr f = specIncrement f ∧
    toneGen_setToneFreq f s = { s with toneTableIncr := specIncrement f } ∧
    toneGen_setBeepFreq f s = { s with beepTableIncr := specIncrement f } := by
  have h := freqToIncr_eq_spec f h0 hx
  refine ⟨h, ?_, ?_⟩
  · rw [setToneFreq_eq, h]
  · rw [setBeepFreq_eq, h]

theorem dividend_f67 :
    (f67.mul freqCorrFactor).mul f65536 = { neg := false, m := 8769914, e := -1 } := by
  decide

theorem dividend_f67_toRat : ((f67.mul freqCorrFactor).mul f65536).toRat = 4384957 := by
  rw [dividend_f67]
  unfold F32.toRat
  norm_num

/-- Witness for C12: for 67 Hz the dividend is 4384957 and the increment is
`68514 = ⌊4384957 / 64⌋`. -/
theorem increment_refines_spec_witness :
    freqToIncr f67 = specIncrement f67 ∧
    toneGen_setToneFreq f67 resetState =
      { resetState with toneTableIncr := specIncrement f67 } ∧
    toneGen_setBeepFreq f67 resetState =
      { resetState with beepTableIncr := specIncrement f67 } :=
  increment_refines_spec f67 resetState
    (by unfold F32.toRat f67; norm_num)
    (by rw [dividend_f67_toRat]; norm_num)

/-! ## Rounding is monotone -/

end ToneGen

namespace Fmp

/-! ## Acknowledgement frames -/

theorem sendAck_eq (status : Nat) :
    fmp_sendAck FMP_OP_ACK status = some [[some 0, some 0, none]] := rfl

theorem protoCallback_cons (p : Platform) (op : Nat) (rest : List Nat) :
    fmp_protoCallback p (op :: rest) =
      if op = FMP_OP_MEMINFO then fmp_opMemInfo p else fmp_sendAck FMP_OP_ACK p.EBADRQC :=
  rfl

/-- C15 (the code as it is): for every message with a first byte, the handler
answers any opcode other than `FMP_OP_MEMINFO` with one frame of three bytes
whose byte 0 is `0x00`, whose byte 1 is `0` (the status stored there is
overwritten by the next store) and whose byte 2 has never been written. -/
theorem sendAck_frame (p : Platform) (op : Nat) (rest : List Nat) :
    fmp_protoCallback p (op :: rest) =
      if op = FMP_OP_MEMINFO then fmp_opMemInfo p else some [[some 0, some 0, none]] := by
  rw [protoCallback_cons, sendAck_eq]

/-! ## The memory information reply -/

theorem store_eq (buf : Buffer) (i b : Nat) (h : i < buf.length) :
    store buf i b = some (buf.set i (some b)) := by
  unfold store
  rw [if_pos h]

theorem memcpy_spec (buf : Buffer) (off : Nat) (src : List Nat) (n : Nat)
    (hb : off + n ≤ buf.length) (hs : n ≤ src.length) :
    ∃ r, memcpy buf off src n = some r ∧ r.length = buf.length ∧
      (∀ j, j < n → r[off + j]? = some (src[j]?)) ∧
      (∀ k, k < off ∨ off + n ≤ k → r[k]? = buf[k]?) := by
  induction n with
  | zero =>
    exact ⟨buf, rfl, rfl, fun j hj => absurd hj (Nat.not_lt_zero j), fun _ _ => rfl⟩
  | succ n ih =>
    obtain ⟨r0, h0, hl0, hin0, hout0⟩ := ih (by omega) (by omega)
    have hsn : n < src.length := by omega
    have hget : src[n]? = some src[n] := List.getElem?_eq_getElem hsn
    have hidx : off + n < r0.length := by omega
    refine ⟨r0.set (off + n) (some src[n]), ?_, ?_, ?_, ?_⟩
    · show (memcpy buf off src n).bind _ = _
      rw [h0, Option.some_bind, hget, Option.some_bind, store_eq _ _ _ hidx]
    · rw [List.length_set, hl0]
    · intro j hj
      by_cases hjn : j = n
      · subst hjn
        rw [List.getElem?_set_self hidx, hget]
      · rw [List.getElem?_set_ne (by omega)]
        exact hin0 j (by omega)
    · intro k hk
      rw [List.getElem?_set_ne (by omega)]
      exact hout0 k (by omega)

theorem memInfoLoop_spec (p : Platform) (n : Nat) (buf : Buffer)
    (hb : 3 + n * (p.sizeofMeminfo + 1) ≤ buf.length)
    (hd : ∀ i, i < n → p.sizeofMeminfo ≤ (p.available_mem i).length) :
    ∃ r, memInfoLoop p n buf = some r ∧ r.length = buf.length ∧
      (∀ i, i < n →
        r[3 + i * (p.sizeofMeminfo + 1)]? = some (some (toU8 p.sizeofMeminfo)) ∧
        ∀ j, j < p.sizeofMeminfo →
          r[3 + i * (p.sizeofMeminfo + 1) + 1 + j]? = some ((p.available_mem i)[j]?)) ∧
      (∀ k, 3 ≤ k → k < 3 + n * (p.sizeofMeminfo + 1) → ∃ b, r[k]? = some (some b)) ∧
      (∀ k, k < 3 ∨ 3 + n * (p.sizeofMeminfo + 1) ≤ k → r[k]? = buf[k]?) := by
  induction n with
  | zero =>
    refine ⟨buf, rfl, rfl, fun i hi => absurd hi (Nat.not_lt_zero i), ?_, fun _ _ => rfl⟩
    intro k h1 h2
    omega
  | succ n ih =>
    have hmul : (n + 1) * (p.sizeofMeminfo + 1) =
        n * (p.sizeofMeminfo + 1) + (p.sizeofMeminfo + 1) := Nat.succ_mul _ _
    obtain ⟨r0, h0, hl0, hblk0, hwr0, hout0⟩ :=
      ih (by omega) (fun i hi => hd i (by omega))
    have hoff : 3 + n * (p.sizeofMeminfo + 1) < r0.length := by omega
    obtain ⟨r2, h2, hl2, hin2, hout2⟩ :=
      memcpy_spec (r0.set (3 + n * (p.sizeofMeminfo + 1)) (some (toU8 p.sizeofMeminfo)))
        (3 + n * (p.sizeofMeminfo + 1) + 1) (p.available_mem n) p.sizeofMeminfo
        (by rw [List.length_set]; omega) (hd n (by omega))
    have hlen : r2[3 + n * (p.sizeofMeminfo + 1)]? =
        some (some (toU8 p.sizeofMeminfo)) := by
      rw [hout2 _ (by omega), List.getElem?_set_self hoff]
    have hold : ∀ k, k < 3 + n * (p.sizeofMeminfo + 1) → r2[k]? = r0[k]? := by
      intro k hk
      rw [hout2 k (by omega), List.getElem?_set_ne (by omega)]
    refine ⟨r2, ?_, ?_, ?_, ?_, ?_⟩
    · show (memInfoLoop p n buf).bind _ = _
      rw [h0, Option.some_bind, store_eq _ _ _ hoff, Option.some_bind, h2]
    · rw [hl2, List.length_set, hl0]
    · intro i hi
      by_cases hin : i = n
      · subst hin
        exact ⟨hlen, fun j hj => hin2 j hj⟩
      · have hi2 : i + 1 ≤ n := by omega
        have hle : (i + 1) * (p.sizeofMeminfo + 1) ≤ n * (p.sizeofMeminfo + 1) :=
          Nat.mul_le_mul_right _ hi2
        have hmul2 : (i + 1) * (p.sizeofMeminfo + 1) =
            i * (p.sizeofMeminfo + 1) + (p.sizeofMeminfo + 1) := Nat.succ_mul _ _
        obtain ⟨ha, hb2⟩ := hblk0 i (by omega)
        refine ⟨?_, ?_⟩
        · rw [hold _ (by omega)]; exact ha
        · intro j hj
          rw [hold _ (by omega)]; exact hb2 j hj
    · intro k hk1 hk2
      by_cases hlt : k < 3 + n * (p.sizeofMeminfo + 1)
      · rw [hold k hlt]; exact hwr0 k hk1 hlt
      · by_cases heq : k = 3 + n * (p.sizeofMeminfo + 1)
        · subst heq; exact ⟨_, hlen⟩
        · obtain ⟨j, hj⟩ : ∃ j, k = 3 + n * (p.sizeofMeminfo + 1) + 1 + j :=
            ⟨k - (3 + n * (p.sizeofMeminfo + 1) + 1), by omega⟩
          have hjS : j < p.sizeofMeminfo := by omega
          have hsrc : j < (p.available_mem n).length :=
            lt_of_lt_of_le hjS (hd n (by omega))
          refine ⟨(p.available_mem n)[j], ?_⟩
          rw [hj, hin2 j hjS, List.getElem?_eq_getElem hsrc]
    · intro k hk
      rw [hout2 k (by omega), List.getElem?_set_ne (by omega)]
      exact hout0 k (by omega)

theorem toU8_of_lt (v : Nat) (h : v < 256) : toU8 v = v := Nat.mod_eq_of_lt h

theorem opMemInfo_spec (p : Platform)
    (hd : ∀ i, i < p.AVAILABLE_MEM_SIZE → p.sizeofMeminfo ≤ (p.available_mem i).length) :
    ∃ reply, fmp_opMemInfo p = some [reply] ∧
      reply.length = 3 + p.AVAILABLE_MEM_SIZE * (p.sizeofMeminfo + 1) ∧
      reply[0]? = some (some (toU8 FMP_OP_MEMINFO)) ∧
      reply[1]? = some (some (toU8 p.OK)) ∧
      reply[2]? = some (some (toU8 p.AVAILABLE_MEM_SIZE)) ∧
      (∀ i, i < p.AVAILABLE_MEM_SIZE →
        reply[3 + i * (p.sizeofMeminfo + 1)]? = some (some (toU8 p.sizeofMeminfo)) ∧
        ∀ j, j < p.sizeofMeminfo →
          reply[3 + i * (p.sizeofMeminfo + 1) + 1 + j]? = some ((p.available_mem i)[j]?)) ∧
      (∀ k, k < reply.length → ∃ b, reply[k]? = some (some b)) := by
  have hL : (allocReply (MEMINFO_REPLY_SIZE p)).length =
      3 + p.AVAILABLE_MEM_SIZE * (p.sizeofMeminfo + 1) := by
    unfold allocReply MEMINFO_REPLY_SIZE
    rw [List.length_replicate]
  unfold fmp_opMemInfo
  generalize allocReply (MEMINFO_REPLY_SIZE p) = buf0 at hL ⊢
  have hsize : MEMINFO_REPLY_SIZE p = 3 + p.AVAILABLE_MEM_SIZE * (p.sizeofMeminfo + 1) := rfl
  have h1 : 0 < buf0.length := by omega
  have h2 : 1 < (buf0.set 0 (some (toU8 FMP_OP_MEMINFO))).length := by
    rw [List.length_set]; omega
  have h3 : 2 < ((buf0.set 0 (some (toU8 FMP_OP_MEMINFO))).set 1 (some (toU8 p.OK))).length := by
    rw [List.length_set, List.length_set]; omega
  obtain ⟨r, hr, hlr, hblk, hwr, hout⟩ :=
    memInfoLoop_spec p p.AVAILABLE_MEM_SIZE
      ((((buf0.set 0 (some (toU8 FMP_OP_MEMINFO))).set 1 (some (toU8 p.OK))).set 2
        (some (toU8 p.AVAILABLE_MEM_SIZE))))
      (by rw [List.length_set, List.length_set, List.length_set]; omega) hd
  rw [List.length_set, List.length_set, List.length_set, hL] at hlr
  have hb0 : r[0]? = some (some (toU8 FMP_OP_MEMINFO)) := by
    rw [hout 0 (by omega), List.getElem?_set_ne (by omega), List.getElem?_set_ne (by omega),
      List.getElem?_set_self h1]
  have hb1 : r[1]? = some (some (toU8 p.OK)) := by
    rw [hout 1 (by omega), List.getElem?_set_ne (by omega), List.getElem?_set_self h2]
  have hb2 : r[2]? = some (some (toU8 p.AVAILABLE_MEM_SIZE)) := by
    rw [hout 2 (by omega), List.getElem?_set_self h3]
  refine ⟨r, ?_, hlr, hb0, hb1, hb2, hblk, ?_⟩
  · rw [store_eq _ _ _ h1, Option.some_bind, store_eq _ _ _ h2, Option.some_bind,
      store_eq _ _ _ h3, Option.some_bind, hr, Option.some_bind]
    unfold rtxlink_send
    rw [hsize, ← hlr, List.take_length]
  · intro k hk
    by_cases hk3 : 3 ≤ k
    · exact hwr k hk3 (by omega)
    · have hcases : k = 0 ∨ k = 1 ∨ k = 2 := by omega
      rcases hcases with h | h | h
      · subst h; exact ⟨_, hb0⟩
      · subst h; exact ⟨_, hb1⟩
      · subst h; exact ⟨_, hb2⟩

/-- C20: for every message whose first byte is `FMP_OP_MEMINFO`, with
`N = AVAILABLE_MEM_SIZE` descriptors of `S = sizeof(meminfo_t)` bytes each (`N`,
`S` and the status `OK` being byte values), the handler sends exactly one reply
of length `3 + N * (S + 1)`: byte 0 is `0x01`, byte 1 is `OK`, byte 2 is `N`, and
for each `i < N` the byte at offset `3 + i * (S + 1)` is `S`, followed by the `S`
bytes of descriptor `i`; every byte of the reply is written, and the parameter
blocks follow one another without overlap and end within the reply. -/
theorem memInfo_reply (p : Platform) (rest : List Nat)
    (hN : p.AVAILABLE_MEM_SIZE < 256) (hS : p.sizeofMeminfo < 256) (hOK : p.OK < 256)
    (hd : ∀ i, i < p.AVAILABLE_MEM_SIZE → (p.available_mem i).length = p.sizeofMeminfo) :
    ∃ reply, fmp_protoCallback p (FMP_OP_MEMINFO :: rest) = some [reply] ∧
      reply.length = 3 + p.AVAILABLE_MEM_SIZE * (p.sizeofMeminfo + 1) ∧
      reply[0]? = some (some 0x01) ∧
      reply[1]? = some (some p.OK) ∧
      reply[2]? = some (some p.AVAILABLE_MEM_SIZE) ∧
      (∀ i, i < p.AVAILABLE_MEM_SIZE →
        reply[3 + i * (p.sizeofMeminfo + 1)]? = some (some p.sizeofMeminfo) ∧
        (∀ j, j < p.sizeofMeminfo →
          reply[3 + i * (p.sizeofMeminfo + 1) + 1 + j]? = some ((p.available_mem i)[j]?)) ∧
        3 + (i + 1) * (p.sizeofMeminfo + 1) ≤ reply.length ∧
        (∀ i2, i < i2 →
          3 + i * (p.sizeofMeminfo + 1) + (p.sizeofMeminfo + 1) ≤
            3 + i2 * (p.sizeofMeminfo + 1))) ∧
      (∀ k, k < reply.length → ∃ b, reply[k]? = some (some b)) := by
  obtain ⟨reply, hsend, hlen, hb0, hb1, hb2, hblk, hwr⟩ :=
    opMemInfo_spec p (fun i hi => le_of_eq (hd i hi).symm)
  rw [toU8_of_lt _ hOK] at hb1
  rw [toU8_of_lt _ hN] at hb2
  refine ⟨reply, ?_, hlen, hb0, hb1, hb2, ?_, hwr⟩
  · rw [protoCallback_cons, if_pos rfl]; exact hsend
  · intro i hi
    obtain ⟨ha, hb⟩ := hblk i hi
    rw [toU8_of_lt _ hS] at ha
    refine ⟨ha, hb, ?_, ?_⟩
    · rw [hlen]
      have : (i + 1) * (p.sizeofMeminfo + 1) ≤
          p.AVAILABLE_MEM_SIZE * (p.sizeofMeminfo + 1) :=
        Nat.mul_le_mul_right _ (by omega)
      omega
    · intro i2 hi2
      have h1 : (i + 1) * (p.sizeofMeminfo + 1) ≤ i2 * (p.sizeofMeminfo + 1) :=
        Nat.mul_le_mul_right _ (by omega)
      have h2 : (i + 1) * (p.sizeofMeminfo + 1) =
          i * (p.sizeofMeminfo + 1) + (p.sizeofMeminfo + 1) := Nat.succ_mul _ _
      omega

/-- Witness for C20: the sample platform, one descriptor of four bytes. -/
theorem memInfo_reply_witness :
    ∃ reply, fmp_protoCallback samplePlatform (FMP_OP_MEMINFO :: []) = some [reply] ∧
      reply.length = 3 + samplePlatform.AVAILABLE_MEM_SIZE * (samplePlatform.sizeofMeminfo + 1) ∧
      reply[0]? = some (some 0x01) ∧
      reply[1]? = some (some samplePlatform.OK) ∧
      reply[2]? = some (some samplePlatform.AVAILABLE_MEM_SIZE) ∧
      (∀ i, i < samplePlatform.AVAILABLE_MEM_SIZE →
        reply[3 + i * (samplePlatform.sizeofMeminfo + 1)]? =
          some (some samplePlatform.sizeofMeminfo) ∧
        (∀ j, j < samplePlatform.sizeofMeminfo →
          reply[3 + i * (samplePlatform.sizeofMeminfo + 1) + 1 + j]? =
            some ((samplePlatform.available_mem i)[j]?)) ∧
        3 + (i + 1) * (samplePlatform.sizeofMeminfo + 1) ≤ reply.length ∧
        (∀ i2, i < i2 →
          3 + i * (samplePlatform.sizeofMeminfo + 1) + (samplePlatform.sizeofMeminfo + 1) ≤
            3 + i2 * (samplePlatform.sizeofMeminfo + 1))) ∧
      (∀ k, k < reply.length → ∃ b, reply[k]? = some (some b)) :=
  memInfo_reply samplePlatform [] (by decide) (by decide) (by decide) (fun _ _ => rfl)

end Fmp
